import Mathlib

/-!
# Verification of the Codex-Wrapper subprocess / output layer

A shallow embedding of `app/codex.py`, `app/config.py` and
`app/model_registry.py`.  Python strings are modelled as `List Char`
(ASCII-faithful: `str.lower`, `str.isalnum`, whitespace tests are modelled
by their ASCII behaviour, which covers every character the code's own
literals and the claims use).  Python `dict`s are modelled as
insertion-ordered association lists.  Fallible code returns `Except`.
-/

set_option autoImplicit false

namespace CodexWrapper

/-- Python strings, modelled as lists of characters. -/
abbrev Str := List Char

/-- Model of Python whitespace (`str.strip` / `str.split` with no
arguments), restricted to the ASCII whitespace characters. -/
def py_isspace (c : Char) : Bool :=
  c == ' ' || c == '\t' || c == '\n' || c == '\r' || c == '\x0b' || c == '\x0c'

/-- Model of `str.lower` (ASCII). -/
def py_lower (v : Str) : Str := v.map Char.toLower

/-- Model of `str.strip()` (no arguments). -/
def py_strip (v : Str) : Str :=
  ((v.dropWhile py_isspace).reverse.dropWhile py_isspace).reverse

/-- Model of `str.rstrip("\r\n")`. -/
def rstrip_rn (v : Str) : Str :=
  (v.reverse.dropWhile (fun c => c == '\r' || c == '\n')).reverse

/-- Model of `str.rstrip("\n")`. -/
def rstrip_n (v : Str) : Str :=
  (v.reverse.dropWhile (fun c => c == '\n')).reverse

/-- `a` starts with `b` (model of `str.startswith`). -/
def starts : Str → Str → Bool
  | _, [] => true
  | [], _ :: _ => false
  | c :: t, d :: u => c == d && starts t u

/-- `a` ends with `b` (model of `str.endswith`). -/
def ends (a b : Str) : Bool := starts a.reverse b.reverse

/-- Model of the Python substring test `needle in hay`. -/
def str_contains : Str → Str → Bool
  | [], needle => needle.isEmpty
  | c :: t, needle => starts (c :: t) needle || str_contains t needle

/-- Model of `str.splitlines` (line boundaries `"\n"`, `"\r\n"`, `"\r"`;
the code only ever feeds it text whose boundaries are of these forms). -/
def splitlines : Str → List Str
  | [] => []
  | '\r' :: '\n' :: t => [] :: splitlines t
  | '\r' :: t => [] :: splitlines t
  | '\n' :: t => [] :: splitlines t
  | c :: t =>
    match splitlines t with
    | [] => [[c]]
    | l :: ls => (c :: l) :: ls

/-- Model of `str.split()` with no arguments: split on runs of
whitespace, discarding empty pieces. -/
def py_split_ws : Str → List Str
  | [] => []
  | [c] => if py_isspace c then [] else [[c]]
  | c :: d :: t =>
    if py_isspace c then py_split_ws (d :: t)
    else if py_isspace d then [c] :: py_split_ws t
    else
      match py_split_ws (d :: t) with
      | [] => [[c]]
      | w :: ws => (c :: w) :: ws

/-- Model of `sep.join(parts)`. -/
def join_with (sep : Str) : List Str → Str
  | [] => []
  | [x] => x
  | x :: y :: t => x ++ sep ++ join_with sep (y :: t)

/-! ## The line filter (`_CodexOutputFilter`, codex.py lines 34-143) -/

/-- Model of the regex `_TIMESTAMP_LINE = ^\[\d{4}-\d{2}-\d{2}T\d{2}:\d{2}:\d{2}]`
applied with `re.match` (anchored at the start): on success returns the
text after the matched timestamp. -/
def ts_match : Str → Option Str
  | '[' :: y1 :: y2 :: y3 :: y4 :: '-' :: o1 :: o2 :: '-' :: d1 :: d2 :: 'T' ::
      h1 :: h2 :: ':' :: n1 :: n2 :: ':' :: s1 :: s2 :: ']' :: rest =>
    if y1.isDigit && y2.isDigit && y3.isDigit && y4.isDigit &&
       o1.isDigit && o2.isDigit && d1.isDigit && d2.isDigit &&
       h1.isDigit && h2.isDigit && n1.isDigit && n2.isDigit &&
       s1.isDigit && s2.isDigit
    then some rest else none
  | _ => none

/-- `_KNOWN_METADATA_PREFIXES` (codex.py lines 35-50). -/
def known_metadata_heads : List Str :=
  [("workdir:".data), ("model:".data), ("provider:".data), ("approval:".data),
   ("sandbox:".data), ("reasoning effort:".data), ("reasoning summaries:".data),
   ("tokens used:".data), ("user instructions:".data), ("user:".data),
   ("searched:".data), ("searching:".data), ("retrying ".data), ("error:".data)]

/-- `_strip_leading_symbols` (codex.py lines 113-120): drop the leading run
of non-alphanumeric characters. -/
def strip_leading_symbols (v : Str) : Str :=
  v.dropWhile (fun c => !c.isAlphanum)

/-- `_is_metadata_line` (codex.py lines 105-110). -/
def is_metadata_line (text : Str) : Bool :=
  (ts_match text).isSome ||
    (known_metadata_heads.any fun h => starts (strip_leading_symbols (py_lower text)) h)

/-- `_looks_like_codex_marker` (codex.py lines 123-129). -/
def looks_like_codex_marker (text : Str) : Bool :=
  starts (py_lower text) ("assistant".data) ||
    ((ts_match text).isSome && str_contains (py_lower text) (" codex".data))

/-- The mutable flags of `_CodexOutputFilter` (codex.py lines 56-59). -/
structure FState where
  saw_assistant : Bool
  emitted_any : Bool
  in_user_block : Bool
deriving DecidableEq, Repr

/-- `_CodexOutputFilter.__init__`. -/
def FState.init : FState := ⟨false, false, false⟩

/-- The `normalized` value computed by `_CodexOutputFilter.process`
(codex.py lines 63-70) from the `\r\n`-stripped line. -/
def normalize_line (line : Str) : Str :=
  let strippedL := py_strip line
  match ts_match strippedL with
  | some remainder => strip_leading_symbols (py_lower (py_strip remainder))
  | none => strip_leading_symbols (py_lower strippedL)

/-- `_CodexOutputFilter.process` (codex.py lines 61-102): returns the
updated filter state and `some emitted` or `none` (Python `None`). -/
def process (st : FState) (raw_line : Str) : FState × Option Str :=
  let line := rstrip_rn raw_line
  let strippedL := py_strip line
  let normalized := normalize_line line
  if starts normalized ("user instructions:".data) || starts normalized ("user:".data) then
    ({ st with in_user_block := true }, none)
  else if starts normalized ("assistant:".data) then
    ({ st with in_user_block := false, saw_assistant := true }, none)
  else if strippedL.isEmpty then
    if st.in_user_block then (st, none)
    else if st.emitted_any then (st, some ['\n'])
    else (st, none)
  else if st.in_user_block then
    if looks_like_codex_marker strippedL then ({ st with in_user_block := false }, none)
    else (st, none)
  else if is_metadata_line strippedL then (st, none)
  else ({ st with saw_assistant := true, emitted_any := true }, some (line ++ ['\n']))

/-- Run the filter over a list of raw lines, collecting the emitted
parts (the loop body of `_sanitize_codex_text`, codex.py lines 137-140;
`if processed:` is truth-y exactly when `process` returned a string,
since every emitted string ends in `"\n"` and hence is non-empty). -/
def run_filter (st : FState) : List Str → FState × List Str
  | [] => (st, [])
  | l :: ls =>
    let (st', o) := process st (l ++ ['\n'])
    let (st'', ps) := run_filter st' ls
    (st'', (match o with | none => ps | some p => p :: ps))

/-- `_sanitize_codex_text` (codex.py lines 132-143). -/
def sanitize_codex_text (raw : Str) : Str :=
  rstrip_n (List.flatten (run_filter FState.init (splitlines raw)).2)

example :
    sanitize_codex_text ("[2025-09-15T06:53:40] thinking\n\nFirst step\nSecond step\n[2025-09-15T06:53:42] codex\n\nFinal answer".data)
      = ("First step\nSecond step\n\nFinal answer".data) := by decide

example :
    (process FState.init ("assistant: hello\n".data)).2 = none := by decide

example :
    sanitize_codex_text ("user: hi\nstill user\n[2025-09-15T06:53:42] codex\nanswer".data)
      = ("answer".data) := by decide

/-! ## The reasoning-suppression filter (spec section 4.3)

The repository's tests (`tests/test_codex_reasoning_filter.py`,
`workspace/test_filter.py`) exercise `codex._ReasoningSuppressor` and
`codex.filter_codex_stdout_line`, but those definitions are absent from
the `app/codex.py` under verification (only `_CodexOutputFilter` is
present, and it has no reasoning-hidden mode).  The definitions below are
therefore modelled from the spec, not translated from source. -/

/-- Modelled from the spec: the `suppressing-reasoning` state of the Line
Filter (spec 4.3 rule 5), entered only when reasoning is configured
hidden.  "A block begins in response to a timestamped line starting with
`thinking` and ends at the next timestamped line starting with `codex`;
every line strictly inside the block — including blank lines — is
dropped; the terminating `codex` line itself is also dropped but exits
the suppressed state."  `should_skip` returns the updated suppression
flag and whether the line is dropped by the suppressor. -/
def suppressor_should_skip (expose suppressing : Bool) (raw_line : Str) : Bool × Bool :=
  if expose then (suppressing, false)
  else
    let strippedL := py_strip (rstrip_rn raw_line)
    match ts_match strippedL with
    | some remainder =>
      if suppressing then
        if starts (py_strip remainder) ("codex".data) then (false, true)
        else (true, true)
      else if starts (py_strip remainder) ("thinking".data) then (true, true)
      else (suppressing, false)
    | none => (suppressing, suppressing)

/-- Modelled from the spec: the per-line cleaning function
`filter_codex_stdout_line`, absent from `app/codex.py`, applied to each
line the suppressor keeps.  Spec 4.3: rule 1 (strip a leading bracketed
timestamp), rule 2 (a bare timestamp-only line is dropped), rule 6
(metadata-prefixed lines are dropped), rule 8 (an `assistant:` label is
stripped and the remainder emitted unless empty), rule 9 (a leading bare
`codex` label is stripped), and the blank-line handling of the spec's own
section-8 sample, where a blank line passes through as a single newline
token.  Returns `none` (dropped) or the cleaned newline-terminated
text. -/
def filter_codex_stdout_line (raw_line : Str) : Option Str :=
  let line := rstrip_rn raw_line
  let strippedL := py_strip line
  let hadTs := (ts_match strippedL).isSome
  let body := match ts_match strippedL with
    | some r => py_strip r
    | none => strippedL
  if hadTs && body.isEmpty then none
  else if body.isEmpty then some ['\n']
  else if is_metadata_line body then none
  else if starts (py_lower body) ("assistant:".data) then
    let remainder := py_strip (body.drop ("assistant:".data).length)
    if remainder.isEmpty then none else some (remainder ++ ['\n'])
  else if starts (py_lower body) ("codex".data) then
    let remainder := py_strip (body.drop ("codex".data).length)
    if remainder.isEmpty then some ['\n'] else some (remainder ++ ['\n'])
  else some ((if hadTs then body else line) ++ ['\n'])

/-- Modelled from the spec: feeding a transcript through the reasoning
suppressor and then the per-line cleaner, collecting the emitted lines
(the composition exercised by the streaming path when reasoning is
hidden). -/
def run_reasoning_filter (expose suppressing : Bool) : List Str → List Str
  | [] => []
  | l :: ls =>
    let (suppressing', skip) := suppressor_should_skip expose suppressing l
    let rest := run_reasoning_filter expose suppressing' ls
    if skip then rest
    else
      match filter_codex_stdout_line l with
      | none => rest
      | some p => p :: rest

example :
    run_reasoning_filter false false
      [("[2025-09-15T06:53:40] thinking\n".data), ("\n".data),
       ("First reasoning step\n".data), ("Second reasoning step\n".data),
       ("[2025-09-15T06:53:42] codex\n".data), ("\n".data),
       ("Final answer line\n".data)]
      = [("\n".data), ("Final answer line\n".data)] := by decide

example :
    run_reasoning_filter true false
      [("[2025-09-15T06:53:40] thinking\n".data), ("\n".data),
       ("First reasoning step\n".data), ("Second reasoning step\n".data),
       ("[2025-09-15T06:53:42] codex\n".data), ("\n".data),
       ("Final answer line\n".data)]
      = [("thinking\n".data), ("\n".data), ("First reasoning step\n".data),
         ("Second reasoning step\n".data), ("\n".data), ("\n".data),
         ("Final answer line\n".data)] := by decide

/-! ## The command builder (`_build_cmd_and_env`, codex.py lines 258-328)
    and the `Settings` model (config.py lines 8-40) -/

/-- A Python value as it occurs in the override mapping / config dict. -/
inductive Val where
  | str (v : Str)
  | bool (b : Bool)
  | int (n : Int)
deriving DecidableEq, Repr

/-- Python truthiness (`bool(v)`) for the modelled values. -/
def truthy : Val → Bool
  | .str v => !v.isEmpty
  | .bool b => b
  | .int n => n != 0

/-- A Python `dict` with string keys: an insertion-ordered association
list with at most one entry per key. -/
abbrev Dict := List (Str × Val)

/-- `d[k]` lookup (`dict.get`): the value at the first matching key. -/
def dict_get (d : Dict) (k : Str) : Option Val :=
  match d.find? (fun kv => kv.1 = k) with
  | some kv => some kv.2
  | none => none

/-- `d[k] = v`: replace the value in place if the key is present
(keeping its position), else append the new entry. -/
def dict_set (d : Dict) (k : Str) (v : Val) : Dict :=
  if d.any (fun kv => kv.1 = k) then
    d.map (fun kv => if kv.1 = k then (k, v) else kv)
  else d ++ [(k, v)]

/-- `d.update(m)`: assign every entry of `m` into `d`, in `m`'s order. -/
def dict_update (d : Dict) (m : Dict) : Dict :=
  m.foldl (fun acc kv => dict_set acc kv.1 kv.2) d

/-- The field names the `Settings` model declares
(config.py lines 8-28). -/
def settings_field_names : List Str :=
  [("proxy_api_key".data), ("codex_workdir".data), ("codex_config_dir".data),
   ("codex_path".data), ("sandbox_mode".data), ("workspace_network_access".data),
   ("reasoning_effort".data), ("local_only".data), ("timeout_seconds".data),
   ("rate_limit_per_minute".data), ("allow_danger_full_access".data),
   ("codex_model".data)]

/-- Attribute lookup on the `settings` instance: a pydantic
`BaseSettings` model exposes exactly its declared fields as attributes
(the default `extra` policy ignores undeclared names), so `hasattr` holds
only for the declared field names. -/
def settings_hasattr (name : Str) : Bool :=
  settings_field_names.any (fun f => f = name)

/-- The result of evaluating `settings.hide_reasoning`
(codex.py line 268): `some` a value if `Settings` declared the field,
`none` (an `AttributeError`) otherwise. -/
def settings_hide_reasoning : Option Val :=
  if settings_hasattr ("hide_reasoning".data) then some (Val.bool false) else none

/-- The overrides mapping as received from the API: an insertion-ordered
mapping whose values may be Python `None` (modelled `none`). -/
abbrev Overrides := List (Str × Option Val)

/-- The loop body building `mapped` from one override entry
(codex.py lines 273-285): skip `None` values, rename `sandbox`,
`reasoning_effort`, `hide_reasoning` and `expose_reasoning`, pass every
other key through unchanged. -/
def map_override (acc : Dict) (kv : Str × Option Val) : Dict :=
  match kv.2 with
  | none => acc
  | some v =>
    if kv.1 = ("sandbox".data) then dict_set acc ("sandbox_mode".data) v
    else if kv.1 = ("reasoning_effort".data) then
      dict_set acc ("model_reasoning_effort".data) v
    else if kv.1 = ("hide_reasoning".data) then
      dict_set acc ("hide_agent_reasoning".data) (Val.bool (truthy v))
    else if kv.1 = ("expose_reasoning".data) then
      dict_set acc ("hide_agent_reasoning".data) (Val.bool (!truthy v))
    else dict_set acc kv.1 v

/-- The `mapped` dict built from the whole override mapping
(codex.py lines 272-285). -/
def mapped_overrides (ov : Overrides) : Dict :=
  ov.foldl map_override []

/-- The config merge of `_build_cmd_and_env` (codex.py lines 265-286):
defaults from the settings object, then `cfg.update(mapped)`. -/
def merge_cfg (sandbox_mode_setting reasoning_effort_setting : Str)
    (hide_reasoning_val : Val) (ov : Overrides) : Dict :=
  dict_update
    [(("sandbox_mode".data), Val.str sandbox_mode_setting),
     (("model_reasoning_effort".data), Val.str reasoning_effort_setting),
     (("hide_agent_reasoning".data), hide_reasoning_val)]
    (mapped_overrides ov)

/-- One `--config key=value` payload (codex.py lines 303-310): strings
are TOML-quoted, booleans render as `true`/`false`, other values render
via their natural textual form. -/
def render_config_token (k : Str) (v : Val) : Str :=
  match v with
  | .str s => k ++ ("=\"".data) ++ s ++ ("\"".data)
  | .bool b => k ++ ("=".data) ++ (if b then ("true".data) else ("false".data))
  | .int n => k ++ ("=".data) ++ (toString n).data

/-- The `--config` flags emitted from the merged dict (codex.py lines
299-310): one flag per entry, in dict order, skipping the reserved
`network_access` key. -/
def cfg_tokens (cfg : Dict) : List Str :=
  cfg.foldl
    (fun acc kv =>
      if kv.1 = ("network_access".data) then acc
      else acc ++ [("--config".data), render_config_token kv.1 kv.2])
    []

/-- The `--image` flags (codex.py lines 296-298). -/
def image_tokens : Option (List Str) → List Str
  | none => []
  | some imgs => imgs.foldl (fun acc img => acc ++ [("--image".data), img]) []

/-- The quoted `model` flag (codex.py lines 312-313); `if model:` is
falsy both for `None` and for the empty string. -/
def model_tokens : Option Str → List Str
  | none => []
  | some m => if m.isEmpty then [] else [("--config".data), ("model=\"".data) ++ m ++ ("\"".data)]

/-- `overrides.get("network_access")` (codex.py line 315): `none` both
when the key is absent and when its stored value is Python `None`. -/
def ov_get (ov : Option Overrides) (k : Str) : Option Val :=
  match ov with
  | none => none
  | some l =>
    match l.find? (fun kv => kv.1 = k) with
    | some kv => kv.2
    | none => none

/-- The nested `sandbox_workspace_write={ network_access = ... }` token
(codex.py line 326). -/
def network_token (allow : Bool) : Str :=
  ("sandbox_workspace_write=\x7b network_access = ".data) ++
    (if allow then ("true".data) else ("false".data)) ++ (" \x7d".data)

/-- The network-access flags (codex.py lines 315-326): only under an
effective `workspace-write` sandbox, and only when an explicit override
is present or the process-wide default toggle is on. -/
def network_tokens (cfg : Dict) (sandbox_mode_setting : Str)
    (workspace_network_access : Bool) (ov : Option Overrides) : List Str :=
  let override_network := ov_get ov ("network_access".data)
  let effective_sandbox := (dict_get cfg ("sandbox_mode".data)).getD (Val.str sandbox_mode_setting)
  if effective_sandbox = Val.str ("workspace-write".data) then
    let allow := match override_network with
      | some v => truthy v
      | none => workspace_network_access
    if override_network.isSome || workspace_network_access then
      [("--config".data), network_token allow]
    else []
  else []

/-- `_build_cmd_and_env` (codex.py lines 258-328), parameterized over the
resolved executable path and the relevant attributes of the runtime
`settings` object.  `hide_reasoning_attr = none` models the
`settings.hide_reasoning` attribute being absent, in which case the
config-dict construction on line 268 raises `AttributeError` before any
command vector is produced. -/
def build_cmd_and_env (exe : Str) (sandbox_mode_setting reasoning_effort_setting : Str)
    (hide_reasoning_attr : Option Val) (workspace_network_access : Bool)
    (prompt : Str) (overrides : Option Overrides)
    (images : Option (List Str)) (model : Option Str) : Except Str (List Str) :=
  match hide_reasoning_attr with
  | none => .error ("AttributeError: 'Settings' object has no attribute 'hide_reasoning'".data)
  | some hr =>
    let cfg := merge_cfg sandbox_mode_setting reasoning_effort_setting hr
      (match overrides with | none => [] | some ov => ov)
    .ok ([exe, ("exec".data), prompt, ("--color".data), ("never".data)] ++
      image_tokens images ++ cfg_tokens cfg ++ model_tokens model ++
      network_tokens cfg sandbox_mode_setting workspace_network_access overrides)

example :
    build_cmd_and_env ("/bin/codex".data) ("read-only".data) ("medium".data)
      (some (Val.bool true)) false ("prompt text".data) none none none
      = .ok [("/bin/codex".data), ("exec".data), ("prompt text".data),
             ("--color".data), ("never".data),
             ("--config".data), ("sandbox_mode=\"read-only\"".data),
             ("--config".data), ("model_reasoning_effort=\"medium\"".data),
             ("--config".data), ("hide_agent_reasoning=true".data)] := rfl

example :
    build_cmd_and_env ("/bin/codex".data) ("read-only".data) ("medium".data)
      (some (Val.bool true)) false ("p".data)
      (some [(("hide_reasoning".data), some (Val.bool false))]) none none
      = .ok [("/bin/codex".data), ("exec".data), ("p".data),
             ("--color".data), ("never".data),
             ("--config".data), ("sandbox_mode=\"read-only\"".data),
             ("--config".data), ("model_reasoning_effort=\"medium\"".data),
             ("--config".data), ("hide_agent_reasoning=false".data)] := rfl

example :
    build_cmd_and_env ("c".data) ("workspace-write".data) ("medium".data)
      (some (Val.bool false)) true ("p".data) none none none
      = .ok [("c".data), ("exec".data), ("p".data), ("--color".data), ("never".data),
             ("--config".data), ("sandbox_mode=\"workspace-write\"".data),
             ("--config".data), ("model_reasoning_effort=\"medium\"".data),
             ("--config".data), ("hide_agent_reasoning=false".data),
             ("--config".data),
             ("sandbox_workspace_write=\x7b network_access = true \x7d".data)] := rfl

/-! ## Model-identifier extraction (codex.py lines 414-644) -/

/-- A parsed JSON value, as handed to `_parse_model_listing` after
`json.loads` succeeds. -/
inductive J where
  | str (v : Str)
  | int (n : Int)
  | bool (b : Bool)
  | null
  | arr (xs : List J)
  | obj (fields : List (Str × J))

/-- `data.get(key)` on a JSON object. -/
def J.get (j : J) (k : Str) : Option J :=
  match j with
  | .obj fields =>
    match fields.find? (fun kv => kv.1 = k) with
    | some kv => some kv.2
    | none => none
  | _ => none

/-- `_compose_codex_variant_name`'s variant normalization
(codex.py line 528): characters outside `[0-9a-zA-Z._-]` map to `-`
(runs collapse via the following step), then runs of `-` collapse to a
single `-` (line 529) and leading/trailing `-` are stripped. -/
def variant_allowed (c : Char) : Bool :=
  c.isDigit || (c.isAlpha && c.toNat < 128) || c == '.' || c == '_' || c == '-'

/-- Collapse every run of `-` to a single `-` (re.sub(`-+`, `-`)). -/
def collapse_dashes : Str → Str
  | [] => []
  | '-' :: t =>
    match collapse_dashes t with
    | '-' :: u => '-' :: u
    | u => '-' :: u
  | c :: t => c :: collapse_dashes t

/-- `str.strip("-")`. -/
def strip_dashes (v : Str) : Str :=
  ((v.dropWhile (fun c => c == '-')).reverse.dropWhile (fun c => c == '-')).reverse

/-- The normalized variant of `_compose_codex_variant_name`
(codex.py lines 528-529). -/
def normalize_variant (variant : Str) : Str :=
  strip_dashes (collapse_dashes
    ((py_lower (py_strip variant)).map (fun c => if variant_allowed c then c else '-')))

/-- `_compose_codex_variant_name` (codex.py lines 525-538). -/
def compose_codex_variant_name (base : Option Str) (variant : Str) : Option Str :=
  if variant.isEmpty then none
  else
    let normalized := normalize_variant variant
    if normalized.isEmpty || !str_contains normalized ("codex".data) then none
    else
      let base_name := match base with
        | some b => py_strip b
        | none => []
      if !base_name.isEmpty then
        if ends (py_lower base_name) ('-' :: normalized) then none
        else some (base_name ++ ['-'] ++ normalized)
      else some normalized

/-- `_first_non_empty_string` (codex.py lines 493-500). -/
def first_non_empty_string (data : J) : List Str → Option Str
  | [] => none
  | k :: ks =>
    match data.get k with
    | some (.str v) =>
      if (py_strip v).isEmpty then first_non_empty_string data ks
      else some (py_strip v)
    | _ => first_non_empty_string data ks

mutual

/-- `_iter_variant_strings` (codex.py lines 512-522). -/
def iter_variant_strings : J → List Str
  | .str v => [v]
  | .arr xs => iter_variant_strings_list xs
  | .obj fields =>
    (["id", "name", "variant", "deployment"].map String.data).foldl
      (fun acc k =>
        match (J.obj fields).get k with
        | some (.str v) => acc ++ [v]
        | _ => acc) []
  | _ => []

/-- `_iter_variant_strings` over the entries of a JSON list. -/
def iter_variant_strings_list : List J → List Str
  | [] => []
  | x :: xs => iter_variant_strings x ++ iter_variant_strings_list xs

end

/-- `_collect_codex_aliases` (codex.py lines 503-509); an absent field
(`data.get(key)` returning `None`) contributes nothing because
`_iter_variant_strings(None)` yields no strings. -/
def collect_codex_aliases (base : Option Str) (raw_value : Option J) : List Str :=
  (match raw_value with
   | none => []
   | some j => iter_variant_strings j).foldl
    (fun acc variant =>
      match compose_codex_variant_name base variant with
      | some a => acc ++ [a]
      | none => acc) []

/-- `_extract_model_identifiers_from_dict` (codex.py lines 478-490). -/
def extract_model_identifiers_from_dict (data : J) : List Str :=
  let base := first_non_empty_string data
    (["id", "model", "name", "slug"].map String.data)
  (match base with | some b => [b] | none => []) ++
    collect_codex_aliases base (data.get ("deployment".data)) ++
    collect_codex_aliases base (data.get ("variant".data)) ++
    collect_codex_aliases base (data.get ("deployments".data)) ++
    collect_codex_aliases base (data.get ("variants".data))

/-- `_extract_model_identifiers` (codex.py lines 469-475). -/
def extract_model_identifiers : J → List Str
  | .str v => if (py_strip v).isEmpty then [] else [py_strip v]
  | .obj fields => extract_model_identifiers_from_dict (.obj fields)
  | _ => []

/-- `_dedupe_preserving_order` (codex.py lines 599-607). -/
def dedupe_preserving_order (values : List Str) : List Str :=
  (values.foldl
    (fun (acc : List Str × List Str) v =>
      if acc.1.contains v then acc else (acc.1 ++ [v], acc.2 ++ [v]))
    ([], [])).2

/-- The JSON branch of `_parse_model_listing` (codex.py lines 420-442)
once `json.loads` has produced a value: pick the item list out of a
`data`/`models`/`items` envelope, a single-object listing or a bare
list, extract identifiers from every item, and dedupe preserving
order.  Returns `none` when no item list is recognized (the code then
falls through to plaintext parsing). -/
def parse_model_listing_json (data : J) : Option (List Str) :=
  let items : Option (List J) :=
    match data with
    | .obj fields =>
      (match (J.obj fields).get ("data".data) with
       | some (.arr xs) => some xs
       | _ =>
        match (J.obj fields).get ("models".data) with
        | some (.arr xs) => some xs
        | _ =>
          match (J.obj fields).get ("items".data) with
          | some (.arr xs) => some xs
          | _ =>
            match (J.obj fields).get ("id".data) with
            | some (.str _) => some [J.obj fields]
            | _ => none)
    | .arr xs => some xs
    | _ => none
  match items with
  | none => none
  | some xs =>
    some (dedupe_preserving_order
      (xs.foldl (fun acc item => acc ++ extract_model_identifiers item) []))

example :
    parse_model_listing_json
      (J.obj [(("data".data),
        J.arr [J.obj [(("id".data), J.str ("gpt-5".data)),
                      (("deployment".data), J.str ("codex".data))],
               J.obj [(("id".data), J.str ("o4-mini".data)),
                      (("deployment".data), J.str ("default".data))]])])
      = some [("gpt-5".data), ("gpt-5-codex".data), ("o4-mini".data)] := by decide

/-! ## Model discovery (`list_codex_models`, codex.py lines 331-411) and
    the registry (`model_registry.py`) -/

/-- What one discovery step can observe of the outside world.  A listing
subcommand can fail to launch fatally (`FileNotFoundError` /
`PermissionError` re-raised as `CodexError`), fail non-fatally with a
recorded reason, time out, exit non-zero, or produce output text whose
parse yields a (possibly empty) model list.  The proto probe and the
config-file read can raise, or yield a (possibly empty) list. -/
inductive AttemptOutcome where
  | launchFatal (msg : Str)
  | launchOther (msg : Str)
  | timedOut
  | nonzeroExit (stderrText : Str) (returncode : Int)
  | models (found : List Str)
deriving DecidableEq, Repr

/-- Outcome of the `proto` probe / the config-file fallback: an
exception message or a (possibly empty) model list. -/
inductive SourceOutcome where
  | raised (msg : Str)
  | models (found : List Str)
deriving DecidableEq, Repr

/-- The environment `list_codex_models` runs against: one outcome per
listing variant, one for the proto probe, one for the config file. -/
structure DiscoveryEnv where
  listing : List Str → AttemptOutcome
  proto : SourceOutcome
  config_file : SourceOutcome

/-- The four listing subcommand variants, in the order tried
(codex.py lines 338-343). -/
def listing_attempts (exe : Str) : List (List Str) :=
  [[exe, ("models".data), ("list".data), ("--json".data)],
   [exe, ("models".data), ("--json".data)],
   [exe, ("models".data), ("list".data)],
   [exe, ("models".data)]]

/-- The error string recorded for one failed listing attempt
(codex.py lines 364, 374, 378-379, 387). -/
def attempt_error (cmd : List Str) (reason : Str) : Str :=
  join_with (" ".data) cmd ++ (" -> ".data) ++ reason

/-- The recorded reason for a non-zero exit (codex.py line 378):
`stderr.strip() or f"exit code {returncode}"`. -/
def nonzero_exit_reason (stderrText : Str) (returncode : Int) : Str :=
  if (py_strip stderrText).isEmpty then ("exit code ".data) ++ (toString returncode).data
  else py_strip stderrText

/-- The attempt loop of `list_codex_models` (codex.py lines 346-387):
returns either the first non-empty model list or the accumulated error
trail; a fatal launch failure aborts the whole call. -/
def run_listing_attempts (env : DiscoveryEnv) :
    List (List Str) → List Str → Except Str (List Str) ⊕ List Str
  | [], errors => .inr errors
  | cmd :: rest, errors =>
    match env.listing cmd with
    | .launchFatal msg => .inl (.error msg)
    | .launchOther msg => run_listing_attempts env rest (errors ++ [attempt_error cmd msg])
    | .timedOut => run_listing_attempts env rest (errors ++ [attempt_error cmd ("timed out".data)])
    | .nonzeroExit stderrText returncode =>
      run_listing_attempts env rest
        (errors ++ [attempt_error cmd (nonzero_exit_reason stderrText returncode)])
    | .models found =>
      if found.isEmpty then
        run_listing_attempts env rest (errors ++ [attempt_error cmd ("no models returned".data)])
      else .inl (.ok found)

/-- The config-file step and final failure of `list_codex_models`
(codex.py lines 399-411). -/
def discovery_config_step (_exe : Str) (env : DiscoveryEnv) (errors : List Str) :
    Except Str (List Str) :=
  let errors' := match env.config_file with
    | .raised msg => errors ++ [("config.toml -> ".data) ++ msg]
    | .models found =>
      if found.isEmpty then errors ++ [("config.toml -> no models returned".data)]
      else errors
  match env.config_file with
  | .models found =>
    if !found.isEmpty then .ok found
    else .error (("Unable to list Codex models (".data) ++
      (if errors'.isEmpty then ("no output".data) else join_with ("; ".data) errors') ++ (")".data))
  | .raised _ =>
    .error (("Unable to list Codex models (".data) ++
      (if errors'.isEmpty then ("no output".data) else join_with ("; ".data) errors') ++ (")".data))

/-- `list_codex_models` (codex.py lines 331-411): the four listing
variants in order, then the proto probe, then the config-file fallback;
on exhaustion a `CodexError` whose message joins every recorded failure
reason with `"; "`. -/
def list_codex_models (exe : Str) (env : DiscoveryEnv) : Except Str (List Str) :=
  match run_listing_attempts env (listing_attempts exe) [] with
  | .inl r => r
  | .inr errors0 =>
    let errors1 := match env.proto with
      | .raised msg => errors0 ++ [exe ++ (" proto -> ".data) ++ msg]
      | .models found =>
        if found.isEmpty then errors0 ++ [exe ++ (" proto -> no models returned".data)]
        else errors0
    match env.proto with
    | .models found =>
      if !found.isEmpty then .ok found
      else
        discovery_config_step exe env errors1
    | .raised _ => discovery_config_step exe env errors1

/-- `DEFAULT_MODEL` (model_registry.py line 11). -/
def DEFAULT_MODEL : Str := ("codex-cli".data)

/-- `_augment_models` (model_registry.py lines 19-33). -/
def augment_models (models : List Str) : List Str :=
  (models.foldl
    (fun (acc : List Str × List Str) model =>
      let acc1 := if !model.isEmpty && !acc.1.contains model
        then (acc.1 ++ [model], acc.2 ++ [model]) else acc
      if ends model ("-codex".data) then
        let base := model.take (model.length - 6)
        if !base.isEmpty && !acc1.1.contains base
          then (acc1.1 ++ [base], acc1.2 ++ [base]) else acc1
      else acc1)
    ([], [])).2

/-- `initialize_model_registry` (model_registry.py lines 36-58): the
`_AVAILABLE_MODELS` catalog after startup — the augmented discovery
result, or the augmented hardcoded default when discovery raised or
returned an empty list. -/
def initialize_model_registry (exe : Str) (env : DiscoveryEnv) : List Str :=
  match list_codex_models exe env with
  | .ok models => if models.isEmpty then augment_models [DEFAULT_MODEL] else augment_models models
  | .error _ => augment_models [DEFAULT_MODEL]

/-- `REASONING_EFFORT_SUFFIXES` (model_registry.py line 16). -/
def REASONING_EFFORT_SUFFIXES : List Str :=
  [("minimal".data), ("low".data), ("medium".data), ("high".data)]

/-- `get_available_models(include_reasoning_aliases=True)`
(model_registry.py lines 61-70), over a given catalog state. -/
def get_available_models_with_aliases (catalog : List Str) : List Str :=
  catalog ++ catalog.flatMap
    (fun base => REASONING_EFFORT_SUFFIXES.map (fun suffix => base ++ [' '] ++ suffix))

/-- `str.rsplit(" ", 1)` for a string known to contain a space: the text
before the last space and the text after it. -/
def rsplit_space_one (v : Str) : Str × Str :=
  let rev := v.reverse
  ((rev.dropWhile (fun c => c != ' ')).drop 1 |>.reverse,
   (rev.takeWhile (fun c => c != ' ')).reverse)

/-- `_split_model_and_effort` (model_registry.py lines 99-107). -/
def split_model_and_effort (raw : Str) : Str × Option Str :=
  let normalized := join_with (" ".data) (py_split_ws raw)
  if normalized.isEmpty then (normalized, none)
  else if normalized.contains ' ' then
    let (base, suffix) := rsplit_space_one normalized
    if !base.isEmpty && REASONING_EFFORT_SUFFIXES.contains (py_lower suffix) then
      (base, some (py_lower suffix))
    else (normalized, none)
  else (normalized, none)

/-- `choose_model` (model_registry.py lines 79-90) over a catalog state,
for a non-empty requested name (`if requested:`); on lookup failure the
`ValueError` message lists the full catalog including aliases. -/
def choose_model (catalog : List Str) (requested : Str) : Except Str (Str × Option Str) :=
  if requested.isEmpty then
    .ok ((match catalog with | m :: _ => m | [] => DEFAULT_MODEL), none)
  else
    let (base_model, effort) := split_model_and_effort requested
    if catalog.contains base_model then .ok (base_model, effort)
    else
      let available := join_with (", ".data) (get_available_models_with_aliases catalog)
      .error (("Model '".data) ++ requested ++ ("' is not available. Choose one of: ".data) ++
        (if available.isEmpty then ("none".data) else available))

example :
    choose_model [("gpt-5-codex".data)] ("gpt-5-codex high".data)
      = .ok (("gpt-5-codex".data), some ("high".data)) := rfl

/-! ## The process supervisor (`run_codex`, codex.py lines 647-694, and
    `run_codex_last_message`, codex.py lines 698-746) -/

/-- The child process as the supervisor sees it: whether it is still
running and whether its exit status has been collected. -/
structure Child where
  running : Bool
  reaped : Bool
deriving DecidableEq, Repr

/-- A freshly spawned child. -/
def Child.spawned : Child := ⟨true, false⟩

/-- `proc.kill()`: force-terminate; the process stops running but its
status has not yet been collected. -/
def Child.kill (_ : Child) : Child := ⟨false, false⟩

/-- `await proc.wait()` / `await proc.communicate()` completing: the
process has exited and its status is collected. -/
def Child.wait (_ : Child) : Child := ⟨false, true⟩

/-- How one `run_codex` invocation can leave the `try` block after a
successful launch (codex.py lines 676-694). -/
inductive RunCodexExit where
  | exitZero
  | exitNonzero (stderrText : Str)
  | waitTimeout
  | callerException
deriving DecidableEq, Repr

/-- What a finished `run_codex` call looks like: the final state of the
child and the failure (if any) propagating to the caller. -/
structure SupervisorResult where
  child : Child
  failure : Option Str
deriving DecidableEq, Repr

/-- The `finally` block of `run_codex` (codex.py lines 691-694):
`if proc.returncode is None: proc.kill(); await proc.wait()`.
`returncode is None` exactly when the exit status has not been
collected. -/
def run_codex_finally (c : Child) : Child :=
  if !c.reaped then (c.kill).wait else c

/-- `run_codex` after a successful launch (codex.py lines 676-694),
per exit path: the stream loop ends, then
`await asyncio.wait_for(proc.wait(), timeout)`; a non-zero exit raises
`CodexError(stderr)`; a timeout runs `proc.kill()` then raises
`CodexError("codex execution timed out")`; an exception from the caller
propagates; in every case the `finally` block runs last. -/
def run_codex (exit : RunCodexExit) : SupervisorResult :=
  match exit with
  | .exitZero =>
    { child := run_codex_finally (Child.spawned.wait), failure := none }
  | .exitNonzero stderrText =>
    { child := run_codex_finally (Child.spawned.wait),
      failure := some (if stderrText.isEmpty then ("codex execution failed".data) else stderrText) }
  | .waitTimeout =>
    { child := run_codex_finally (Child.spawned.kill),
      failure := some ("codex execution timed out".data) }
  | .callerException =>
    { child := run_codex_finally Child.spawned, failure := some ("caller exception".data) }

/-- How one `run_codex_last_message` invocation can leave its `try`
block after a successful launch (codex.py lines 715-746). -/
inductive LastMessageExit where
  | communicateZero
  | communicateNonzero (stderrText : Str)
  | communicateTimeout
deriving DecidableEq, Repr

/-- `run_codex_last_message` after a successful launch (codex.py lines
715-746), per exit path: `await asyncio.wait_for(proc.communicate(),
timeout)` reaps the child when it completes; a non-zero exit raises
`CodexError(stderr)`; on `asyncio.TimeoutError` the code raises
`CodexError("codex execution timed out")` **without touching the
process** — its `finally` block (lines 742-746) only removes the
temporary output file. -/
def run_codex_last_message (exit : LastMessageExit) : SupervisorResult :=
  match exit with
  | .communicateZero =>
    { child := Child.spawned.wait, failure := none }
  | .communicateNonzero stderrText =>
    { child := Child.spawned.wait,
      failure := some (if stderrText.isEmpty then ("codex execution failed".data) else stderrText) }
  | .communicateTimeout =>
    { child := Child.spawned, failure := some ("codex execution timed out".data) }

/-! ## Theorems -/

/-- Inversion for the timestamp regex: a successful anchored match pins
down the shape of the input. -/
theorem ts_match_inv {v r : Str} (h : ts_match v = some r) :
    ∃ y1 y2 y3 y4 o1 o2 d1 d2 h1 h2 n1 n2 s1 s2 : Char,
      v = '[' :: y1 :: y2 :: y3 :: y4 :: '-' :: o1 :: o2 :: '-' :: d1 :: d2 :: 'T' ::
        h1 :: h2 :: ':' :: n1 :: n2 :: ':' :: s1 :: s2 :: ']' :: r ∧
      (y1.isDigit && y2.isDigit && y3.isDigit && y4.isDigit &&
       o1.isDigit && o2.isDigit && d1.isDigit && d2.isDigit &&
       h1.isDigit && h2.isDigit && n1.isDigit && n2.isDigit &&
       s1.isDigit && s2.isDigit) = true := by
  unfold ts_match at h
  split at h
  · rename_i y1 y2 y3 y4 o1 o2 d1 d2 h1 h2 n1 n2 s1 s2 rest
    split at h
    · rename_i hd
      cases h
      exact ⟨y1, y2, y3, y4, o1, o2, d1, d2, h1, h2, n1, n2, s1, s2, rfl, hd⟩
    · cases h
  · cases h

/-- A full timestamp match extends along an appended tail. -/
theorem ts_match_append {v : Str} (h : ts_match v = some []) (rest : Str) :
    ts_match (v ++ rest) = some rest := by
  obtain ⟨y1, y2, y3, y4, o1, o2, d1, d2, h1, h2, n1, n2, s1, s2, rfl, hd⟩ := ts_match_inv h
  simp only [List.cons_append, List.nil_append]
  unfold ts_match
  simp [hd]

/-- `dropWhile` over an append whose left part survives. -/
theorem dropWhile_append_left {α : Type} (p : α → Bool) (a b : List α)
    (h : ¬ a.dropWhile p = []) : (a ++ b).dropWhile p = a.dropWhile p ++ b := by
  induction a with
  | nil => simp at h
  | cons x t ih =>
    by_cases hx : p x
    · simp only [List.cons_append, List.dropWhile_cons, hx, if_true] at h ⊢
      exact ih h
    · simp [List.cons_append, List.dropWhile_cons, hx]

/-- `rstrip` distributes over append when the tail does not strip away. -/
theorem rstrip_rn_append (x y : Str) (h : ¬ rstrip_rn y = []) :
    rstrip_rn (x ++ y) = x ++ rstrip_rn y := by
  unfold rstrip_rn at *
  rw [List.reverse_append,
    dropWhile_append_left _ _ _ (fun hc => h (by rw [hc, List.reverse_nil])),
    List.reverse_append, List.reverse_reverse]

/-- Same for `rstrip("\n")`. -/
theorem rstrip_n_append (x y : Str) (h : ¬ rstrip_n y = []) :
    rstrip_n (x ++ y) = x ++ rstrip_n y := by
  unfold rstrip_n at *
  rw [List.reverse_append,
    dropWhile_append_left _ _ _ (fun hc => h (by rw [hc, List.reverse_nil])),
    List.reverse_append, List.reverse_reverse]

/-- `py_strip` leaves a string alone when its first and last characters
are not whitespace (stated via the two `dropWhile` sides). -/
theorem py_strip_eq_self (v : Str) (h1 : v.dropWhile py_isspace = v)
    (h2 : v.reverse.dropWhile py_isspace = v.reverse) : py_strip v = v := by
  unfold py_strip
  rw [h1, h2, List.reverse_reverse]

/-- `py_strip` of a timestamp line with a non-stripping concrete tail. -/
theorem py_strip_ts_line {v : Str} (h : ts_match v = some []) (y : Str)
    (hy : y.reverse.dropWhile py_isspace = y.reverse) (hne : ¬ (y = [])) :
    py_strip (v ++ y) = v ++ y := by
  obtain ⟨y1, y2, y3, y4, o1, o2, d1, d2, h1, h2, n1, n2, s1, s2, hv, _⟩ := ts_match_inv h
  apply py_strip_eq_self
  · rw [hv]
    simp only [List.cons_append, List.dropWhile_cons]
    have : py_isspace '[' = false := by decide
    simp [this]
  · rw [List.reverse_append, dropWhile_append_left _ _ _ (by rw [hy]; simpa using hne), hy]

/-- With reasoning hidden, a timestamped `thinking` line enters the
suppressed state and is dropped. -/
theorem suppressor_skip_thinking {ts : Str} (h : ts_match ts = some []) :
    suppressor_should_skip false false (ts ++ (" thinking\n".data)) = (true, true) := by
  have hr : rstrip_rn (ts ++ (" thinking\n".data)) = ts ++ (" thinking".data) := by
    rw [rstrip_rn_append _ _ (by decide),
      (by decide : rstrip_rn (" thinking\n".data) = (" thinking".data))]
  have hs : py_strip (ts ++ (" thinking".data)) = ts ++ (" thinking".data) :=
    py_strip_ts_line h _ (by decide) (by decide)
  have hm : ts_match (ts ++ (" thinking".data)) = some (" thinking".data) :=
    ts_match_append h _
  simp only [suppressor_should_skip, hr, hs, hm]
  decide

/-- While suppressing, the next timestamped `codex` line exits the
suppressed state but is itself dropped. -/
theorem suppressor_skip_codex {ts : Str} (h : ts_match ts = some []) :
    suppressor_should_skip false true (ts ++ (" codex\n".data)) = (false, true) := by
  have hr : rstrip_rn (ts ++ (" codex\n".data)) = ts ++ (" codex".data) := by
    rw [rstrip_rn_append _ _ (by decide),
      (by decide : rstrip_rn (" codex\n".data) = (" codex".data))]
  have hs : py_strip (ts ++ (" codex".data)) = ts ++ (" codex".data) :=
    py_strip_ts_line h _ (by decide) (by decide)
  have hm : ts_match (ts ++ (" codex".data)) = some (" codex".data) :=
    ts_match_append h _
  simp only [suppressor_should_skip, hr, hs, hm]
  decide

/-- C2: with reasoning configured hidden, the Line Filter fed the
seven-line sample transcript `["[ts] thinking", "", "First step",
"Second step", "[ts] codex", "", "Final answer"]` (with `[ts]` any
bracketed ISO-8601 timestamp) emits exactly the two lines
`["", "Final answer"]` (as newline-terminated tokens): the whole
thinking block, its blank lines and the terminating `codex` line are
dropped, while the blank line before the final content is preserved. -/
theorem c2_hidden_reasoning_sample (ts1 ts2 : Str)
    (h1 : ts_match ts1 = some []) (h2 : ts_match ts2 = some []) :
    run_reasoning_filter false false
      [ts1 ++ (" thinking\n".data), ("\n".data),
       ("First step\n".data), ("Second step\n".data),
       ts2 ++ (" codex\n".data), ("\n".data), ("Final answer\n".data)]
      = [("\n".data), ("Final answer\n".data)] := by
  have e1 : suppressor_should_skip false true (("\n".data)) = (true, true) := by decide
  have e2 : suppressor_should_skip false true (("First step\n".data)) = (true, true) := by decide
  have e3 : suppressor_should_skip false true (("Second step\n".data)) = (true, true) := by
    decide
  have e4 : suppressor_should_skip false false (("\n".data)) = (false, false) := by decide
  have e5 : suppressor_should_skip false false (("Final answer\n".data)) = (false, false) := by
    decide
  have f1 : filter_codex_stdout_line (("\n".data)) = some (("\n".data)) := by decide
  have f2 : filter_codex_stdout_line (("Final answer\n".data))
      = some (("Final answer\n".data)) := by decide
  simp only [run_reasoning_filter, suppressor_skip_thinking h1, suppressor_skip_codex h2,
    e1, e2, e3, e4, e5, f1, f2]
  simp

/-- Witness for C2 at concrete timestamps. -/
theorem c2_hidden_reasoning_sample_witness :
    run_reasoning_filter false false
      [("[2025-09-15T06:53:40]".data) ++ (" thinking\n".data), ("\n".data),
       ("First step\n".data), ("Second step\n".data),
       ("[2025-09-15T06:53:42]".data) ++ (" codex\n".data), ("\n".data),
       ("Final answer\n".data)]
      = [("\n".data), ("Final answer\n".data)] :=
  c2_hidden_reasoning_sample _ _ (by decide) (by decide)

/-- C3: the Command Builder reads `settings.hide_reasoning`
(codex.py line 268), but the `Settings` model (config.py lines 8-40)
declares no field of that name, so for every input the builder fails
with an attribute-lookup error before any command vector is produced. -/
theorem c3_hide_reasoning_attribute_error :
    settings_hasattr ("hide_reasoning".data) = false ∧
    settings_hide_reasoning = none ∧
    ∀ (exe sandbox_mode_setting reasoning_effort_setting : Str)
      (workspace_network_access : Bool) (prompt : Str) (overrides : Option Overrides)
      (images : Option (List Str)) (model : Option Str),
      build_cmd_and_env exe sandbox_mode_setting reasoning_effort_setting
        settings_hide_reasoning workspace_network_access prompt overrides images model
        = .error ("AttributeError: 'Settings' object has no attribute 'hide_reasoning'".data) := by
  refine ⟨by decide, by decide, ?_⟩
  intro exe sm re wna prompt ov imgs mdl
  rw [(by decide : settings_hide_reasoning = (none : Option Val))]
  rfl

/-! ### C6: model-discovery strategy order and fallback -/

/-- The failure reason `list_codex_models` records for one listing
attempt, by outcome: `none` when the outcome aborts discovery
(a fatal launch error) or succeeds with a non-empty list. -/
def attempt_failure_reason : AttemptOutcome → Option Str
  | .launchFatal _ => none
  | .launchOther msg => some msg
  | .timedOut => some ("timed out".data)
  | .nonzeroExit stderrText returncode => some (nonzero_exit_reason stderrText returncode)
  | .models found => if found.isEmpty then some ("no models returned".data) else none

/-- The failure reason recorded for the proto probe or the config-file
read. -/
def source_failure_reason : SourceOutcome → Option Str
  | .raised msg => some msg
  | .models found => if found.isEmpty then some ("no models returned".data) else none

/-- One failing listing attempt appends its recorded reason and moves on. -/
theorem run_listing_step (env : DiscoveryEnv) (cmd : List Str) (rest : List (List Str))
    (errors : List Str) (r : Str)
    (h : attempt_failure_reason (env.listing cmd) = some r) :
    run_listing_attempts env (cmd :: rest) errors
      = run_listing_attempts env rest (errors ++ [attempt_error cmd r]) := by
  cases henv : env.listing cmd <;>
    simp only [henv, attempt_failure_reason] at h <;>
    simp only [run_listing_attempts, henv]
  · cases h
  · cases h; rfl
  · cases h; rfl
  · cases h; rfl
  · rename_i found
    by_cases hf : found.isEmpty <;> simp [hf] at h ⊢
    cases h; rfl

/-- A listing attempt that yields a non-empty model list wins
immediately. -/
theorem run_listing_success (env : DiscoveryEnv) (cmd : List Str) (rest : List (List Str))
    (errors : List Str) (found : List Str) (hf : ¬ found = [])
    (h : env.listing cmd = .models found) :
    run_listing_attempts env (cmd :: rest) errors = .inl (.ok found) := by
  simp only [run_listing_attempts, h]
  simp [List.isEmpty_iff, hf]

/-- C6: model discovery tries the listing variants in exactly the order
`models list --json`, `models --json`, `models list`, `models`, then the
proto probe, then the config-file fallback, stopping at the first
strategy that yields a non-empty model list; on exhaustion it raises a
failure whose message concatenates every attempted strategy's failure
reason in order, and the registry caller then falls back to the single
hardcoded default model identifier `codex-cli`. -/
theorem c6_discovery_order_and_fallback (exe : Str) (env : DiscoveryEnv) :
    (∀ found, ¬ found = [] →
      env.listing [exe, ("models".data), ("list".data), ("--json".data)] = .models found →
      list_codex_models exe env = .ok found) ∧
    (∀ r1 found,
      attempt_failure_reason
        (env.listing [exe, ("models".data), ("list".data), ("--json".data)]) = some r1 →
      ¬ found = [] →
      env.listing [exe, ("models".data), ("--json".data)] = .models found →
      list_codex_models exe env = .ok found) ∧
    (∀ r1 r2 found,
      attempt_failure_reason
        (env.listing [exe, ("models".data), ("list".data), ("--json".data)]) = some r1 →
      attempt_failure_reason
        (env.listing [exe, ("models".data), ("--json".data)]) = some r2 →
      ¬ found = [] →
      env.listing [exe, ("models".data), ("list".data)] = .models found →
      list_codex_models exe env = .ok found) ∧
    (∀ r1 r2 r3 found,
      attempt_failure_reason
        (env.listing [exe, ("models".data), ("list".data), ("--json".data)]) = some r1 →
      attempt_failure_reason
        (env.listing [exe, ("models".data), ("--json".data)]) = some r2 →
      attempt_failure_reason
        (env.listing [exe, ("models".data), ("list".data)]) = some r3 →
      ¬ found = [] →
      env.listing [exe, ("models".data)] = .models found →
      list_codex_models exe env = .ok found) ∧
    (∀ r1 r2 r3 r4 found,
      attempt_failure_reason
        (env.listing [exe, ("models".data), ("list".data), ("--json".data)]) = some r1 →
      attempt_failure_reason
        (env.listing [exe, ("models".data), ("--json".data)]) = some r2 →
      attempt_failure_reason
        (env.listing [exe, ("models".data), ("list".data)]) = some r3 →
      attempt_failure_reason (env.listing [exe, ("models".data)]) = some r4 →
      ¬ found = [] → env.proto = .models found →
      list_codex_models exe env = .ok found) ∧
    (∀ r1 r2 r3 r4 rp found,
      attempt_failure_reason
        (env.listing [exe, ("models".data), ("list".data), ("--json".data)]) = some r1 →
      attempt_failure_reason
        (env.listing [exe, ("models".data), ("--json".data)]) = some r2 →
      attempt_failure_reason
        (env.listing [exe, ("models".data), ("list".data)]) = some r3 →
      attempt_failure_reason (env.listing [exe, ("models".data)]) = some r4 →
      source_failure_reason env.proto = some rp →
      ¬ found = [] → env.config_file = .models found →
      list_codex_models exe env = .ok found) ∧
    (∀ r1 r2 r3 r4 rp rc,
      attempt_failure_reason
        (env.listing [exe, ("models".data), ("list".data), ("--json".data)]) = some r1 →
      attempt_failure_reason
        (env.listing [exe, ("models".data), ("--json".data)]) = some r2 →
      attempt_failure_reason
        (env.listing [exe, ("models".data), ("list".data)]) = some r3 →
      attempt_failure_reason (env.listing [exe, ("models".data)]) = some r4 →
      source_failure_reason env.proto = some rp →
      source_failure_reason env.config_file = some rc →
      list_codex_models exe env =
        .error (("Unable to list Codex models (".data) ++
          join_with ("; ".data)
            [attempt_error [exe, ("models".data), ("list".data), ("--json".data)] r1,
             attempt_error [exe, ("models".data), ("--json".data)] r2,
             attempt_error [exe, ("models".data), ("list".data)] r3,
             attempt_error [exe, ("models".data)] r4,
             exe ++ (" proto -> ".data) ++ rp,
             ("config.toml -> ".data) ++ rc] ++ (")".data)) ∧
      initialize_model_registry exe env = [("codex-cli".data)]) := by
  refine ⟨?_, ?_, ?_, ?_, ?_, ?_, ?_⟩
  · intro found hf h
    simp only [list_codex_models, listing_attempts]
    rw [run_listing_success _ _ _ _ _ hf h]
  · intro r1 found h1 hf h
    simp only [list_codex_models, listing_attempts]
    rw [run_listing_step _ _ _ _ _ h1, run_listing_success _ _ _ _ _ hf h]
  · intro r1 r2 found h1 h2 hf h
    simp only [list_codex_models, listing_attempts]
    rw [run_listing_step _ _ _ _ _ h1, run_listing_step _ _ _ _ _ h2,
      run_listing_success _ _ _ _ _ hf h]
  · intro r1 r2 r3 found h1 h2 h3 hf h
    simp only [list_codex_models, listing_attempts]
    rw [run_listing_step _ _ _ _ _ h1, run_listing_step _ _ _ _ _ h2,
      run_listing_step _ _ _ _ _ h3, run_listing_success _ _ _ _ _ hf h]
  · intro r1 r2 r3 r4 found h1 h2 h3 h4 hf hp
    simp only [list_codex_models, listing_attempts]
    rw [run_listing_step _ _ _ _ _ h1, run_listing_step _ _ _ _ _ h2,
      run_listing_step _ _ _ _ _ h3, run_listing_step _ _ _ _ _ h4]
    simp [run_listing_attempts, hp, List.isEmpty_iff, hf]
  · intro r1 r2 r3 r4 rp found h1 h2 h3 h4 hp hf h
    simp only [list_codex_models, listing_attempts]
    rw [run_listing_step _ _ _ _ _ h1, run_listing_step _ _ _ _ _ h2,
      run_listing_step _ _ _ _ _ h3, run_listing_step _ _ _ _ _ h4]
    cases hps : env.proto with
    | raised m =>
      simp [run_listing_attempts, hps, discovery_config_step, h, List.isEmpty_iff, hf]
    | models f =>
      rw [hps] at hp
      simp only [source_failure_reason] at hp
      by_cases hfe : f.isEmpty
      · simp [run_listing_attempts, hps, hfe, discovery_config_step, h, List.isEmpty_iff, hf]
      · simp [hfe] at hp
  · intro r1 r2 r3 r4 rp rc h1 h2 h3 h4 hp hc
    have herr : list_codex_models exe env =
        .error (("Unable to list Codex models (".data) ++
          join_with ("; ".data)
            [attempt_error [exe, ("models".data), ("list".data), ("--json".data)] r1,
             attempt_error [exe, ("models".data), ("--json".data)] r2,
             attempt_error [exe, ("models".data), ("list".data)] r3,
             attempt_error [exe, ("models".data)] r4,
             exe ++ (" proto -> ".data) ++ rp,
             ("config.toml -> ".data) ++ rc] ++ (")".data)) := by
      simp only [list_codex_models, listing_attempts]
      rw [run_listing_step _ _ _ _ _ h1, run_listing_step _ _ _ _ _ h2,
        run_listing_step _ _ _ _ _ h3, run_listing_step _ _ _ _ _ h4]
      cases hps : env.proto with
      | raised m =>
        rw [hps] at hp
        simp only [source_failure_reason, Option.some_inj] at hp
        subst hp
        cases hcs : env.config_file with
        | raised mc =>
          rw [hcs] at hc
          simp only [source_failure_reason, Option.some_inj] at hc
          subst hc
          simp [run_listing_attempts, hps, discovery_config_step, hcs, join_with]
        | models fc =>
          rw [hcs] at hc
          simp only [source_failure_reason] at hc
          by_cases hfe : fc.isEmpty
          · simp only [hfe, if_true, Option.some_inj] at hc
            subst hc
            simp [run_listing_attempts, hps, discovery_config_step, hcs, hfe, join_with]
          · simp [hfe] at hc
      | models f =>
        rw [hps] at hp
        simp only [source_failure_reason] at hp
        by_cases hfe : f.isEmpty
        · simp only [hfe, if_true, Option.some_inj] at hp
          subst hp
          cases hcs : env.config_file with
          | raised mc =>
            rw [hcs] at hc
            simp only [source_failure_reason, Option.some_inj] at hc
            subst hc
            simp [run_listing_attempts, hps, hfe, discovery_config_step, hcs, join_with]
          | models fc =>
            rw [hcs] at hc
            simp only [source_failure_reason] at hc
            by_cases hfce : fc.isEmpty
            · simp only [hfce, if_true, Option.some_inj] at hc
              subst hc
              simp [run_listing_attempts, hps, hfe, discovery_config_step, hcs, hfce, join_with]
            · simp [hfce] at hc
        · simp [hfe] at hp
    refine ⟨herr, ?_⟩
    simp only [initialize_model_registry, herr]
    decide

/-- A discovery environment in which every strategy fails, for the C6
witness. -/
def env_all_fail : DiscoveryEnv where
  listing := fun _ => .nonzeroExit ("boom".data) 2
  proto := .raised ("proto down".data)
  config_file := .models []

/-- Witness for C6: exhaustion at a concrete environment. -/
theorem c6_discovery_order_and_fallback_witness :
    list_codex_models ("codex".data) env_all_fail =
      .error (("Unable to list Codex models (codex models list --json -> boom; codex models --json -> boom; codex models list -> boom; codex models -> boom; codex proto -> proto down; config.toml -> no models returned)").data) ∧
    initialize_model_registry ("codex".data) env_all_fail = [("codex-cli".data)] :=
  (c6_discovery_order_and_fallback ("codex".data) env_all_fail).2.2.2.2.2.2
    ("boom".data) ("boom".data) ("boom".data) ("boom".data)
    ("proto down".data) ("no models returned".data)
    (by decide) (by decide) (by decide) (by decide) (by decide) (by decide)

/-! ### C9: deployment/variant-derived aliases always contain `codex` -/

/-- A substring of the right part is a substring of the whole. -/
theorem str_contains_append_right (x y n : Str) (h : str_contains y n = true) :
    str_contains (x ++ y) n = true := by
  induction x with
  | nil => simpa using h
  | cons c t ih => simp [str_contains, ih]

/-- Elements accumulated by the alias fold beyond the accumulator come
from `compose_codex_variant_name` successes. -/
theorem foldl_alias_mem (base : Option Str) (vs : List Str) (acc : List Str) (a : Str)
    (h : a ∈ vs.foldl
      (fun ac v => match compose_codex_variant_name base v with
        | some x => ac ++ [x]
        | none => ac) acc) :
    a ∈ acc ∨ ∃ variant, compose_codex_variant_name base variant = some a := by
  induction vs generalizing acc with
  | nil => exact .inl h
  | cons v t ih =>
    simp only [List.foldl_cons] at h
    rcases hc : compose_codex_variant_name base v with _ | x <;> rw [hc] at h
    · exact ih _ h
    · rcases ih _ h with hmem | hgood
      · rcases List.mem_append.mp hmem with hl | hr
        · exact .inl hl
        · simp only [List.mem_singleton] at hr
          exact .inr ⟨v, by rw [hc, hr]⟩
      · exact .inr hgood

/-- Every collected alias is a `compose_codex_variant_name` success. -/
theorem collect_codex_aliases_mem (base : Option Str) (raw_value : Option J) (a : Str)
    (h : a ∈ collect_codex_aliases base raw_value) :
    ∃ variant, compose_codex_variant_name base variant = some a := by
  unfold collect_codex_aliases at h
  rcases foldl_alias_mem base _ _ _ h with hmem | hgood
  · cases hmem
  · exact hgood

/-- C9: a `compose_codex_variant_name` alias always contains the
normalized word `codex`; consequently every identifier that
`_extract_model_identifiers_from_dict` derives from a
deployment/variant field (i.e. every result other than the base id)
contains `codex`; and on the sample listing
`{"data":[{"id":"gpt-5","deployment":"codex"},{"id":"o4-mini","deployment":"default"}]}`
the catalog is exactly `gpt-5`, `gpt-5-codex`, `o4-mini` — never
`o4-mini-codex`. -/
theorem c9_variant_aliases_contain_codex :
    (∀ (base : Option Str) (variant a : Str),
      compose_codex_variant_name base variant = some a →
      str_contains a ("codex".data) = true) ∧
    (∀ (data : J) (a : Str), a ∈ extract_model_identifiers_from_dict data →
      some a = first_non_empty_string data
        (["id", "model", "name", "slug"].map String.data) ∨
      str_contains a ("codex".data) = true) ∧
    (parse_model_listing_json
      (J.obj [(("data".data),
        J.arr [J.obj [(("id".data), J.str ("gpt-5".data)),
                      (("deployment".data), J.str ("codex".data))],
               J.obj [(("id".data), J.str ("o4-mini".data)),
                      (("deployment".data), J.str ("default".data))]])])
      = some [("gpt-5".data), ("gpt-5-codex".data), ("o4-mini".data)] ∧
     ¬ ("o4-mini-codex".data) ∈ [("gpt-5".data), ("gpt-5-codex".data), ("o4-mini".data)]) := by
  have hcompose : ∀ (base : Option Str) (variant a : Str),
      compose_codex_variant_name base variant = some a →
      str_contains a ("codex".data) = true := by
    intro base variant a h
    unfold compose_codex_variant_name at h
    split at h
    · cases h
    · dsimp only at h
      split at h
      · cases h
      · rename_i hguard
        have hcontains : str_contains (normalize_variant variant) ("codex".data) = true := by
          by_contra hcc
          exact hguard (by simp [Bool.not_eq_true] at hcc ⊢; simp [hcc])
        split at h
        · split at h
          · cases h
          · cases h
            exact str_contains_append_right _ _ _ hcontains
        · cases h
          exact hcontains
  refine ⟨hcompose, ?_, by decide, by decide⟩
  intro data a h
  unfold extract_model_identifiers_from_dict at h
  dsimp only at h
  simp only [List.mem_append] at h
  rcases h with ((((hbase | h1) | h2) | h3) | h4)
  · rcases hb : first_non_empty_string data
      (["id", "model", "name", "slug"].map String.data) with _ | b
    · rw [hb] at hbase
      cases hbase
    · rw [hb] at hbase
      simp only [List.mem_singleton] at hbase
      exact .inl (by rw [hbase])
  · exact .inr (hcompose _ _ _ (collect_codex_aliases_mem _ _ _ h1).choose_spec)
  · exact .inr (hcompose _ _ _ (collect_codex_aliases_mem _ _ _ h2).choose_spec)
  · exact .inr (hcompose _ _ _ (collect_codex_aliases_mem _ _ _ h3).choose_spec)
  · exact .inr (hcompose _ _ _ (collect_codex_aliases_mem _ _ _ h4).choose_spec)

/-- Witness for C9 at the sample's first entry. -/
theorem c9_variant_aliases_contain_codex_witness :
    compose_codex_variant_name (some ("gpt-5".data)) ("codex".data)
      = some ("gpt-5-codex".data) ∧
    str_contains ("gpt-5-codex".data) ("codex".data) = true :=
  ⟨by decide,
   c9_variant_aliases_contain_codex.1 (some ("gpt-5".data)) ("codex".data)
     ("gpt-5-codex".data) (by decide)⟩

/-! ### C8: reasoning-effort suffix resolution -/

/-- `takeWhile` runs past a prefix that satisfies the predicate. -/
theorem takeWhile_append_all {α : Type} (p : α → Bool) (x y : List α)
    (h : ∀ c ∈ x, p c = true) : (x ++ y).takeWhile p = x ++ y.takeWhile p := by
  induction x with
  | nil => simp
  | cons c t ih =>
    have hc := h c (by simp)
    have ht := ih (fun d hd => h d (by simp [hd]))
    simp [List.takeWhile_cons, hc, ht]

/-- `dropWhile` discards a prefix that satisfies the predicate. -/
theorem dropWhile_append_all {α : Type} (p : α → Bool) (x y : List α)
    (h : ∀ c ∈ x, p c = true) : (x ++ y).dropWhile p = y.dropWhile p := by
  induction x with
  | nil => simp
  | cons c t ih =>
    have hc := h c (by simp)
    have ht := ih (fun d hd => h d (by simp [hd]))
    simp [List.dropWhile_cons, hc, ht]

/-- Joining one more word appends a separator and the word. -/
theorem join_with_append_one (sep : Str) (xs : List Str) (y : Str) (h : ¬ xs = []) :
    join_with sep (xs ++ [y]) = join_with sep xs ++ sep ++ y := by
  induction xs with
  | nil => cases h rfl
  | cons x t ih =>
    cases t with
    | nil => simp [join_with]
    | cons z u =>
      have h2 := ih (by simp)
      show x ++ sep ++ join_with sep (z :: (u ++ [y]))
        = x ++ sep ++ join_with sep (z :: u) ++ sep ++ y
      have h2' : join_with sep (z :: (u ++ [y])) = join_with sep (z :: u) ++ sep ++ y := h2
      rw [h2']
      simp [List.append_assoc]

/-- A leading space does not change the word split. -/
theorem py_split_ws_cons_space (b : Str) : py_split_ws (' ' :: b) = py_split_ws b := by
  cases b <;> simp [py_split_ws, py_isspace]

/-- A word split starting at a non-space character is non-empty. -/
theorem py_split_ws_cons_ne_nil (d : Char) (t : Str) (hd : ¬ py_isspace d = true) :
    ¬ py_split_ws (d :: t) = [] := by
  cases t with
  | nil => simp [py_split_ws, hd]
  | cons e u =>
    by_cases he : py_isspace e
    · simp [py_split_ws, hd, he]
    · simp only [py_split_ws, hd, he, if_false]
      cases py_split_ws (e :: u) <;> simp

/-- Splitting around an explicit separator space splits the two sides
independently. -/
theorem py_split_ws_append_space (a b : Str) :
    py_split_ws (a ++ ' ' :: b) = py_split_ws a ++ py_split_ws b := by
  induction a using py_split_ws.induct with
  | case1 => simpa using py_split_ws_cons_space b
  | case2 c hc =>
    simp [py_split_ws, hc, py_split_ws_cons_space]
  | case3 c hc =>
    have hsp : py_isspace ' ' = true := by decide
    simp [py_split_ws, hc, hsp]
  | case4 c d t hc ih =>
    simpa [py_split_ws, hc] using ih
  | case5 c d t hc hd ih =>
    simp [py_split_ws, hc, hd, ih]
  | case6 c d t hc hd hnil ih =>
    exact absurd hnil (py_split_ws_cons_ne_nil d t hd)
  | case7 c d t hc hd w ws hw ih =>
    have ih' : py_split_ws (d :: (t ++ ' ' :: b)) = w :: (ws ++ py_split_ws b) := by
      rw [hw] at ih
      simpa using ih
    simp only [List.cons_append, py_split_ws, hc, hd, hw, List.append_eq,
      Bool.false_eq_true, if_false]
    rw [ih']

/-- `rsplit(" ", 1)` around an explicit final separator whose suffix
contains no space. -/
theorem rsplit_space_one_append (m s : Str) (hs : ∀ c ∈ s, ¬ c = ' ') :
    rsplit_space_one (m ++ ' ' :: s) = (m, s) := by
  have hrev : (m ++ ' ' :: s).reverse = s.reverse ++ (' ' :: m.reverse) := by
    rw [List.reverse_append, List.reverse_cons, List.append_assoc]
    simp
  have hall : ∀ c ∈ s.reverse, (c != ' ') = true := by
    intro c hcm
    simpa using hs c (List.mem_reverse.mp hcm)
  unfold rsplit_space_one
  rw [hrev]
  show ((List.drop 1 (List.dropWhile (fun c => c != ' ')
      (List.reverse s ++ ' ' :: List.reverse m))).reverse,
    (List.takeWhile (fun c => c != ' ')
      (List.reverse s ++ ' ' :: List.reverse m)).reverse) = (m, s)
  rw [dropWhile_append_all _ _ _ hall, takeWhile_append_all _ _ _ hall]
  simp [List.dropWhile_cons, List.takeWhile_cons]

/-- `_split_model_and_effort` on a whitespace-normalized model name
followed by a single space and an effort suffix. -/
theorem split_model_and_effort_suffix (m s : Str)
    (hnorm : join_with (" ".data) (py_split_ws m) = m) (hne : ¬ m = [])
    (hs : s ∈ REASONING_EFFORT_SUFFIXES) :
    split_model_and_effort (m ++ ' ' :: s) = (m, some s) := by
  have hfacts : py_split_ws s = [s] ∧ (∀ c ∈ s, ¬ c = ' ') ∧ py_lower s = s := by
    simp only [REASONING_EFFORT_SUFFIXES, List.mem_cons, List.not_mem_nil, or_false] at hs
    rcases hs with rfl | rfl | rfl | rfl <;>
      exact ⟨by decide, by decide, by decide⟩
  have hwm_ne : ¬ py_split_ws m = [] := by
    intro hw0
    exact hne (by rw [← hnorm, hw0]; rfl)
  have hnormed : join_with (" ".data) (py_split_ws (m ++ ' ' :: s)) = m ++ ' ' :: s := by
    rw [py_split_ws_append_space, hfacts.1, join_with_append_one _ _ _ hwm_ne, hnorm,
      List.append_assoc]
    rfl
  have hcontains : (m ++ ' ' :: s).contains ' ' = true :=
    List.elem_eq_true_of_mem (by simp)
  have hrsplit := rsplit_space_one_append m s hfacts.2.1
  have hsCont : REASONING_EFFORT_SUFFIXES.contains (py_lower s) = true := by
    rw [hfacts.2.2]
    exact List.elem_eq_true_of_mem hs
  have hemp : (m ++ ' ' :: s).isEmpty = false := by
    cases m <;> simp
  unfold split_model_and_effort
  rw [hnormed]
  simp only [hemp, hcontains, hrsplit, Bool.false_eq_true, if_false, if_true]
  simp [hne, hsCont, hfacts.2.2, hs]

/-- C8 as amended: for a catalog model `m` whose internal whitespace is
already normalized (single separating spaces, no leading/trailing
whitespace — true of every space-free model id), requesting `"m s"` with
`s` in the effort vocabulary resolves to `(m, s)`; and a lookup failure
reports the full catalog including the reasoning-effort aliases. -/
theorem c8_effort_suffix_amended :
    (∀ (catalog : List Str) (m s : Str),
      m ∈ catalog →
      join_with (" ".data) (py_split_ws m) = m →
      ¬ m = [] →
      s ∈ REASONING_EFFORT_SUFFIXES →
      choose_model catalog (m ++ ' ' :: s) = .ok (m, some s)) ∧
    (∀ (catalog : List Str) (requested msg : Str),
      choose_model catalog requested = .error msg →
      msg = ("Model '".data) ++ requested ++ ("' is not available. Choose one of: ".data) ++
        (if (join_with (", ".data) (get_available_models_with_aliases catalog)).isEmpty
         then ("none".data)
         else join_with (", ".data) (get_available_models_with_aliases catalog))) := by
  constructor
  · intro catalog m s hmem hnorm hne hs
    have hsplit := split_model_and_effort_suffix m s hnorm hne hs
    have hemp : (m ++ ' ' :: s).isEmpty = false := by
      cases m <;> simp
    have hcat : catalog.contains m = true := List.elem_eq_true_of_mem hmem
    unfold choose_model
    simp only [hemp, hsplit, hcat, Bool.false_eq_true, if_false, if_true]
  · intro catalog requested msg h
    unfold choose_model at h
    split at h
    · cases h
    · dsimp only at h
      split at h
      · cases h
      · injection h with h'
        exact h'.symm

/-- C8 counterexample: the claim as stated fails for a catalog model
whose name contains a run of two spaces — `choose_model` collapses
whitespace before the lookup, so `"a  b high"` does not resolve to
`("a  b", high)` even though `"a  b"` is in the catalog. -/
theorem c8_effort_suffix_counterexample :
    ("a  b".data) ∈ [("a  b".data)] ∧
    ("high".data) ∈ REASONING_EFFORT_SUFFIXES ∧
    ¬ choose_model [("a  b".data)] (("a  b".data) ++ ' ' :: ("high".data))
        = .ok (("a  b".data), some ("high".data)) ∧
    choose_model [("a  b".data)] (("a  b".data) ++ ' ' :: ("high".data))
      = .error (("Model 'a  b high' is not available. Choose one of: a  b, a  b minimal, a  b low, a  b medium, a  b high").data) :=
  ⟨by decide, by decide, fun h => Except.noConfusion h, rfl⟩

/-- Witness for C8 at the sample model. -/
theorem c8_effort_suffix_witness :
    choose_model [("gpt-5-codex".data)] (("gpt-5-codex".data) ++ ' ' :: ("high".data))
      = .ok (("gpt-5-codex".data), some ("high".data)) :=
  c8_effort_suffix_amended.1 [("gpt-5-codex".data)] ("gpt-5-codex".data) ("high".data)
    (by decide) (by decide) (by decide) (by decide)

/-! ### C5: the override merge -/

/-- The claim-level rename table, including the `hide_reasoning` entry
the original claim omitted. -/
def rename_override_key (k : Str) : Str :=
  if k = ("sandbox".data) then ("sandbox_mode".data)
  else if k = ("reasoning_effort".data) then ("model_reasoning_effort".data)
  else if k = ("hide_reasoning".data) then ("hide_agent_reasoning".data)
  else if k = ("expose_reasoning".data) then ("hide_agent_reasoning".data)
  else k

/-- The claim-level value transformation: `hide_reasoning` coerces to a
boolean, `expose_reasoning` inverts into a boolean, everything else is
untouched. -/
def rename_override_val (k : Str) (v : Val) : Val :=
  if k = ("hide_reasoning".data) then Val.bool (truthy v)
  else if k = ("expose_reasoning".data) then Val.bool (!truthy v)
  else v

/-- Keys of an association list are pairwise distinct after renaming. -/
def RenamedNodup (ov : Overrides) : Prop :=
  ov.Pairwise (fun a b => ¬ rename_override_key a.1 = rename_override_key b.1)

/-- Lookup in a cons cell. -/
theorem dict_get_cons (e : Str × Val) (t : Dict) (k' : Str) :
    dict_get (e :: t) k' = if e.1 = k' then some e.2 else dict_get t k' := by
  unfold dict_get
  rw [List.find?_cons]
  by_cases h : e.1 = k' <;> simp [h]

/-- Assigning a key not at the head passes the head through. -/
theorem dict_set_cons_ne (e : Str × Val) (t : Dict) (k : Str) (v : Val)
    (h : ¬ e.1 = k) : dict_set (e :: t) k v = e :: dict_set t k v := by
  unfold dict_set
  simp only [List.any_cons, decide_eq_true_eq, h, false_or, Bool.false_or]
  by_cases hat : t.any (fun kv => kv.1 = k) = true <;> simp [hat, h]

/-- Replacing key `k` leaves lookups at other keys unchanged. -/
theorem dict_get_map_replace (t : Dict) (k : Str) (v : Val) (k' : Str) (hk : ¬ k' = k) :
    dict_get (t.map (fun kv => if kv.1 = k then (k, v) else kv)) k' = dict_get t k' := by
  induction t with
  | nil => rfl
  | cons e u ih =>
    by_cases he : e.1 = k
    · simp only [List.map_cons, he, if_true, dict_get_cons]
      have h1 : ¬ (k, v).1 = k' := fun hc => hk (hc.symm)
      have he' : ¬ e.1 = k' := by rw [he]; exact fun hc => hk hc.symm
      simp [h1, he', ih]
    · simp only [List.map_cons, he, if_false, dict_get_cons, ih]

/-- Lookup after a single assignment. -/
theorem dict_get_set (d : Dict) (k : Str) (v : Val) (k' : Str) :
    dict_get (dict_set d k v) k' = if k' = k then some v else dict_get d k' := by
  induction d with
  | nil =>
    show dict_get [(k, v)] k' = _
    rw [dict_get_cons]
    by_cases h : k' = k
    · simp [h]
    · simp [h, Ne.symm h, dict_get]
  | cons e t ih =>
    by_cases he : e.1 = k
    · have hset : dict_set (e :: t) k v
          = (k, v) :: t.map (fun kv => if kv.1 = k then (k, v) else kv) := by
        unfold dict_set
        simp [List.any_cons, he]
      rw [hset, dict_get_cons]
      by_cases hk : k' = k
      · simp [hk]
      · have : ¬ (k, v).1 = k' := fun hc => hk hc.symm
        simp only [this, if_false, hk, dict_get_map_replace t k v k' hk, dict_get_cons]
        have he' : ¬ e.1 = k' := by rw [he]; exact fun hc => hk hc.symm
        simp [he']
    · rw [dict_set_cons_ne e t k v he, dict_get_cons, dict_get_cons, ih]
      by_cases hek : e.1 = k'
      · have : ¬ k' = k := by rw [← hek]; exact fun hc => he hc
        simp [hek, this]
      · simp [hek]

/-- A key absent from an association list looks up to `none`. -/
theorem dict_get_eq_none (m : Dict) (k : Str) (h : ∀ e ∈ m, ¬ e.1 = k) :
    dict_get m k = none := by
  induction m with
  | nil => rfl
  | cons e t ih =>
    rw [dict_get_cons]
    simp only [h e (by simp), if_false]
    exact ih (fun e' he' => h e' (by simp [he']))

/-- `dict.update` with a mapping that does not bind `k` leaves `k`'s
lookup unchanged. -/
theorem dict_get_update_of_none (d m : Dict) (k : Str) (h : dict_get m k = none) :
    dict_get (dict_update d m) k = dict_get d k := by
  induction m generalizing d with
  | nil => rfl
  | cons e t ih =>
    rw [dict_get_cons] at h
    by_cases he : e.1 = k
    · rw [if_pos he] at h
      cases h
    · rw [if_neg he] at h
      show dict_get (dict_update (dict_set d e.1 e.2) t) k = dict_get d k
      rw [ih _ h, dict_get_set, if_neg (show ¬ k = e.1 from fun hc => he hc.symm)]

/-- Keys are pairwise distinct. -/
def DictNodup (m : Dict) : Prop := m.Pairwise (fun a b => ¬ a.1 = b.1)

/-- `dict.update` with a duplicate-free mapping that binds `k` makes
`k` look up to the bound value. -/
theorem dict_get_update_of_some (d m : Dict) (k : Str) (v : Val)
    (hnd : DictNodup m) (h : dict_get m k = some v) :
    dict_get (dict_update d m) k = some v := by
  induction m generalizing d with
  | nil => cases h
  | cons e t ih =>
    obtain ⟨hh, ht2⟩ := List.pairwise_cons.mp hnd
    rw [dict_get_cons] at h
    by_cases he : e.1 = k
    · rw [if_pos he] at h
      have ht : dict_get t k = none :=
        dict_get_eq_none t k (fun e' he' hc => hh e' he' (by rw [hc, he]))
      show dict_get (dict_update (dict_set d e.1 e.2) t) k = some v
      rw [dict_get_update_of_none _ _ _ ht, dict_get_set, if_pos he.symm]
      exact h
    · rw [if_neg he] at h
      show dict_get (dict_update (dict_set d e.1 e.2) t) k = some v
      exact ih _ ht2 h

/-- A skipped (`None`-valued) override entry leaves the accumulator
unchanged. -/
theorem map_override_none (acc : Dict) (k : Str) :
    map_override acc (k, none) = acc := rfl

/-- One override entry assigns its renamed key and transformed value. -/
theorem map_override_some (acc : Dict) (k : Str) (v : Val) :
    map_override acc (k, some v)
      = dict_set acc (rename_override_key k) (rename_override_val k v) := by
  show (if k = ("sandbox".data) then dict_set acc ("sandbox_mode".data) v
    else if k = ("reasoning_effort".data) then dict_set acc ("model_reasoning_effort".data) v
    else if k = ("hide_reasoning".data) then
      dict_set acc ("hide_agent_reasoning".data) (Val.bool (truthy v))
    else if k = ("expose_reasoning".data) then
      dict_set acc ("hide_agent_reasoning".data) (Val.bool (!truthy v))
    else dict_set acc k v) = _
  unfold rename_override_key rename_override_val
  by_cases h1 : k = ("sandbox".data)
  · subst h1
    rw [if_pos rfl, if_pos rfl, if_neg (by decide), if_neg (by decide)]
  · rw [if_neg h1, if_neg h1]
    by_cases h2 : k = ("reasoning_effort".data)
    · subst h2
      rw [if_pos rfl, if_pos rfl, if_neg (by decide), if_neg (by decide)]
    · rw [if_neg h2, if_neg h2]
      by_cases h3 : k = ("hide_reasoning".data)
      · subst h3
        rw [if_pos rfl, if_pos rfl, if_pos rfl]
      · rw [if_neg h3, if_neg h3, if_neg h3]
        by_cases h4 : k = ("expose_reasoning".data)
        · subst h4
          rw [if_pos rfl, if_pos rfl, if_pos rfl]
        · rw [if_neg h4, if_neg h4, if_neg h4]

/-- Assignment preserves duplicate-freeness of the keys. -/
theorem dict_set_nodup (d : Dict) (k : Str) (v : Val) (h : DictNodup d) :
    DictNodup (dict_set d k v) := by
  unfold dict_set
  by_cases hmem : d.any (fun kv => kv.1 = k) = true
  · rw [if_pos hmem]
    refine List.Pairwise.map _ ?_ h
    intro a b hab
    have hka : (if a.1 = k then (k, v) else a).1 = a.1 := by
      by_cases ha : a.1 = k <;> simp [ha]
    have hkb : (if b.1 = k then (k, v) else b).1 = b.1 := by
      by_cases hb : b.1 = k <;> simp [hb]
    show ¬ (if a.1 = k then (k, v) else a).1 = (if b.1 = k then (k, v) else b).1
    rw [hka, hkb]
    exact hab
  · rw [if_neg hmem]
    show (d ++ [(k, v)]).Pairwise (fun a b => ¬ a.1 = b.1)
    rw [List.pairwise_append]
    refine ⟨h, List.Pairwise.cons (by simp) List.Pairwise.nil, ?_⟩
    intro a ha b hb
    simp only [List.mem_singleton] at hb
    subst hb
    simp only [List.any_eq_true, decide_eq_true_eq, not_exists, not_and] at hmem
    exact fun hc => (hmem a ha) hc

/-- The mapped-overrides dict has duplicate-free keys. -/
theorem mapped_overrides_nodup (ov : Overrides) : DictNodup (mapped_overrides ov) := by
  unfold mapped_overrides
  have : ∀ (l : Overrides) (acc : Dict), DictNodup acc → DictNodup (l.foldl map_override acc) := by
    intro l
    induction l with
    | nil => exact fun acc h => h
    | cons e t ih =>
      intro acc h
      rcases e with ⟨k, _ | v⟩
      · exact ih acc h
      · rw [List.foldl_cons, map_override_some]
        exact ih _ (dict_set_nodup _ _ _ h)
  exact this ov [] (by simp [DictNodup])

/-- Folding override entries none of which (after renaming) bind `key`
leaves `key`'s lookup in the accumulator unchanged. -/
theorem mapped_fold_untouched (t : Overrides) (acc : Dict) (key : Str)
    (h : ∀ e ∈ t, e.2 = none ∨ ¬ rename_override_key e.1 = key) :
    dict_get (t.foldl map_override acc) key = dict_get acc key := by
  induction t generalizing acc with
  | nil => rfl
  | cons e u ih =>
    rcases e with ⟨k, _ | v⟩
    · exact ih _ (fun e' he' => h e' (by simp [he']))
    · rw [List.foldl_cons, map_override_some]
      rw [ih _ (fun e' he' => h e' (by simp [he']))]
      rw [dict_get_set]
      rcases h (k, some v) (by simp) with hnone | hkey
      · cases hnone
      · rw [if_neg (fun hc => hkey hc.symm)]

/-- A non-`None` override entry determines the mapped dict's value at
its renamed key, provided renamed keys do not collide. -/
theorem mapped_get_of_mem (ov : Overrides) (acc : Dict) (k : Str) (v : Val)
    (hnd : RenamedNodup ov) (hmem : (k, some v) ∈ ov) :
    dict_get (ov.foldl map_override acc) (rename_override_key k)
      = some (rename_override_val k v) := by
  induction ov generalizing acc with
  | nil => cases hmem
  | cons e t ih =>
    obtain ⟨hh, ht⟩ := List.pairwise_cons.mp hnd
    rcases List.mem_cons.mp hmem with rfl | hmem'
    · rw [List.foldl_cons, map_override_some]
      rw [mapped_fold_untouched t _ _
        (fun e' he' => Or.inr (fun hc => hh e' he' (by rw [hc])))]
      rw [dict_get_set, if_pos rfl]
    · rcases e with ⟨k', _ | v'⟩
      · exact ih _ ht hmem'
      · rw [List.foldl_cons, map_override_some]
        exact ih _ ht hmem'

/-- `None`-valued override entries contribute nothing to the merge. -/
theorem mapped_overrides_filter_none (ov : Overrides) :
    mapped_overrides ov = mapped_overrides (ov.filter (fun kv => kv.2.isSome)) := by
  unfold mapped_overrides
  have : ∀ (l : Overrides) (acc : Dict),
      l.foldl map_override acc = (l.filter (fun kv => kv.2.isSome)).foldl map_override acc := by
    intro l
    induction l with
    | nil => intro acc; rfl
    | cons e t ih =>
      intro acc
      rcases e with ⟨k, _ | v⟩
      · simpa using ih acc
      · simp only [List.filter_cons, Option.isSome_some, if_true, List.foldl_cons]
        exact ih _
  exact this ov []

/-- C5 counterexample: the claim's rename vocabulary omits
`hide_reasoning`, which the code also renames (to
`hide_agent_reasoning`, with boolean coercion) rather than passing
through unchanged: after merging `{"hide_reasoning": True}` the merged
config has no `hide_reasoning` key at all. -/
theorem c5_merge_counterexample :
    ¬ (("hide_reasoning".data) = ("sandbox".data) ∨
       ("hide_reasoning".data) = ("reasoning_effort".data) ∨
       ("hide_reasoning".data) = ("expose_reasoning".data)) ∧
    dict_get (merge_cfg ("read-only".data) ("medium".data) (Val.bool false)
      [(("hide_reasoning".data), some (Val.bool true))]) ("hide_reasoning".data) = none ∧
    dict_get (merge_cfg ("read-only".data) ("medium".data) (Val.bool false)
      [(("hide_reasoning".data), some (Val.bool true))]) ("hide_agent_reasoning".data)
      = some (Val.bool true) :=
  ⟨by decide, by decide, by decide⟩

/-- C5 as amended: the merge skips `None` values entirely; each kept
entry assigns through the rename table `sandbox → sandbox_mode`,
`reasoning_effort → model_reasoning_effort`, `hide_reasoning →
hide_agent_reasoning` (boolean-coerced), `expose_reasoning →
hide_agent_reasoning` (boolean-inverted); every key outside that
vocabulary passes through unchanged; and when both a default and a kept
override supply the same key, the override's value wins (stated for
override sets whose renamed keys do not collide). -/
theorem c5_merge_amended :
    (∀ (sandbox_mode_setting reasoning_effort_setting : Str) (hr : Val) (ov : Overrides),
      merge_cfg sandbox_mode_setting reasoning_effort_setting hr ov
        = merge_cfg sandbox_mode_setting reasoning_effort_setting hr
            (ov.filter (fun kv => kv.2.isSome))) ∧
    (∀ (acc : Dict) (k : Str) (v : Val),
      map_override acc (k, some v)
        = dict_set acc (rename_override_key k) (rename_override_val k v)) ∧
    (∀ k : Str, ¬ k = ("sandbox".data) → ¬ k = ("reasoning_effort".data) →
      ¬ k = ("hide_reasoning".data) → ¬ k = ("expose_reasoning".data) →
      rename_override_key k = k ∧ ∀ v, rename_override_val k v = v) ∧
    (∀ (sandbox_mode_setting reasoning_effort_setting : Str) (hr : Val)
       (ov : Overrides) (k : Str) (v : Val),
      RenamedNodup ov → (k, some v) ∈ ov →
      dict_get (merge_cfg sandbox_mode_setting reasoning_effort_setting hr ov)
        (rename_override_key k) = some (rename_override_val k v)) := by
  refine ⟨?_, map_override_some, ?_, ?_⟩
  · intro sm re hr ov
    unfold merge_cfg
    rw [mapped_overrides_filter_none]
  · intro k h1 h2 h3 h4
    refine ⟨?_, ?_⟩
    · unfold rename_override_key
      rw [if_neg h1, if_neg h2, if_neg h3, if_neg h4]
    · intro v
      unfold rename_override_val
      rw [if_neg h3, if_neg h4]
  · intro sm re hr ov k v hnd hmem
    unfold merge_cfg
    exact dict_get_update_of_some _ _ _ _ (mapped_overrides_nodup ov)
      (mapped_get_of_mem ov [] k v hnd hmem)

/-- Witness for C5: an override set exercising a rename, a pass-through
key and an override beating a default. -/
theorem c5_merge_amended_witness :
    dict_get (merge_cfg ("read-only".data) ("medium".data) (Val.bool false)
      [(("sandbox".data), some (Val.str ("workspace-write".data))),
       (("custom_key".data), some (Val.int 7)),
       (("ignored".data), none)]) ("sandbox_mode".data)
      = some (Val.str ("workspace-write".data)) :=
  c5_merge_amended.2.2.2 ("read-only".data) ("medium".data) (Val.bool false)
    [(("sandbox".data), some (Val.str ("workspace-write".data))),
     (("custom_key".data), some (Val.int 7)),
     (("ignored".data), none)]
    ("sandbox".data) (Val.str ("workspace-write".data))
    (by unfold RenamedNodup; decide) (by decide)

/-! ### C4: the network-access flag -/

/-- The reserved `network_access` key contributes no standalone config
flag: the emitted tokens are those of the dict with that key removed. -/
theorem cfg_tokens_skip_network (cfg : Dict) :
    cfg_tokens cfg
      = cfg_tokens (cfg.filter (fun kv => !(decide (kv.1 = ("network_access".data))))) := by
  unfold cfg_tokens
  have : ∀ (l : Dict) (acc : List Str),
      l.foldl (fun acc kv =>
        if kv.1 = ("network_access".data) then acc
        else acc ++ [("--config".data), render_config_token kv.1 kv.2]) acc
      = (l.filter (fun kv => !(decide (kv.1 = ("network_access".data))))).foldl
        (fun acc kv =>
          if kv.1 = ("network_access".data) then acc
          else acc ++ [("--config".data), render_config_token kv.1 kv.2]) acc := by
    intro l
    induction l with
    | nil => intro acc; rfl
    | cons e t ih =>
      intro acc
      by_cases he : e.1 = ("network_access".data)
      · rw [List.foldl_cons, if_pos he, List.filter_cons, if_neg (by simp [he])]
        exact ih acc
      · rw [List.foldl_cons, if_neg he, List.filter_cons, if_pos (by simp [he]),
          List.foldl_cons, if_neg he]
        exact ih _
  exact this cfg []

/-- C4: the built command never carries a standalone `network_access`
flag; the nested `sandbox_workspace_write` network-access flag is
emitted if and only if the effective (post-merge) sandbox mode is
`workspace-write` and either an explicit (non-`None`) `network_access`
override is present or the process-wide default toggle is on; its
boolean value comes from the override when present, else from the
default toggle. -/
theorem c4_network_access_flag (exe sandbox_mode_setting reasoning_effort_setting : Str)
    (hr : Val) (workspace_network_access : Bool) (prompt : Str)
    (overrides : Option Overrides) (images : Option (List Str)) (model : Option Str) :
    build_cmd_and_env exe sandbox_mode_setting reasoning_effort_setting (some hr)
        workspace_network_access prompt overrides images model
      = .ok ([exe, ("exec".data), prompt, ("--color".data), ("never".data)] ++
          image_tokens images ++
          cfg_tokens (merge_cfg sandbox_mode_setting reasoning_effort_setting hr
            (match overrides with | none => [] | some o => o)) ++
          model_tokens model ++
          network_tokens (merge_cfg sandbox_mode_setting reasoning_effort_setting hr
            (match overrides with | none => [] | some o => o))
            sandbox_mode_setting workspace_network_access overrides) ∧
    (∀ cfg : Dict, cfg_tokens cfg
      = cfg_tokens (cfg.filter (fun kv => !(decide (kv.1 = ("network_access".data)))))) ∧
    (∀ cfg : Dict,
      (¬ network_tokens cfg sandbox_mode_setting workspace_network_access overrides = [] ↔
        ((dict_get cfg ("sandbox_mode".data)).getD (Val.str sandbox_mode_setting)
            = Val.str ("workspace-write".data) ∧
         ((ov_get overrides ("network_access".data)).isSome = true ∨
          workspace_network_access = true))) ∧
      (∀ b : Bool,
        network_tokens cfg sandbox_mode_setting workspace_network_access overrides
          = [("--config".data), network_token b] →
        b = (match ov_get overrides ("network_access".data) with
             | some v => truthy v
             | none => workspace_network_access))) := by
  refine ⟨rfl, cfg_tokens_skip_network, ?_⟩
  intro cfg
  constructor
  · unfold network_tokens
    by_cases hsb : (dict_get cfg ("sandbox_mode".data)).getD (Val.str sandbox_mode_setting)
        = Val.str ("workspace-write".data)
    · rw [if_pos hsb]
      rcases hov : ov_get overrides ("network_access".data) with _ | v
      · by_cases hw : workspace_network_access <;> simp [hov, hsb, hw]
      · simp [hov, hsb]
    · rw [if_neg hsb]
      simp [hsb]
  · intro b hb
    simp only [network_tokens] at hb
    split at hb
    · split at hb
      · rename_i hcond
        have hinj : network_token b = network_token
            (match ov_get overrides ("network_access".data) with
             | some v => truthy v
             | none => workspace_network_access) := by
          injection hb with h1 h2
          injection h2 with h3 h4
          exact h3.symm
        rcases hm : (match ov_get overrides ("network_access".data) with
             | some v => truthy v
             | none => workspace_network_access) with _ | _ <;>
          rw [hm] at hinj ⊢ <;> cases b
        · rfl
        · exact absurd hinj (by decide)
        · exact absurd hinj (by decide)
        · rfl
      · cases hb
    · cases hb

/-- Witness for C4 at a concrete workspace-write configuration with an
explicit network-access override. -/
theorem c4_network_access_flag_witness :
    ¬ network_tokens
        (merge_cfg ("workspace-write".data) ("medium".data) (Val.bool false)
          [(("network_access".data), some (Val.bool true))])
        ("workspace-write".data) false
        (some [(("network_access".data), some (Val.bool true))]) = [] :=
  ((c4_network_access_flag ("c".data) ("workspace-write".data) ("medium".data)
      (Val.bool false) false ("p".data)
      (some [(("network_access".data), some (Val.bool true))]) none none).2.2
    (merge_cfg ("workspace-write".data) ("medium".data) (Val.bool false)
      [(("network_access".data), some (Val.bool true))])).1.mpr
    ⟨by decide, by decide⟩

/-! ### C1: process cleanup -/

/-- The cleanup half of the Process Supervisor claim that the code does
satisfy: `run_codex` terminates and reaps its child on every exit path,
and its timeout path raises the `timed out` failure. -/
theorem run_codex_cleanup (exit : RunCodexExit) :
    (run_codex exit).child.running = false ∧ (run_codex exit).child.reaped = true := by
  cases exit <;> exact ⟨rfl, rfl⟩

/-- C1 (code bug): `run_codex_last_message`'s timeout path raises
`CodexError("codex execution timed out")` without terminating or
reaping the still-running child — its `finally` block only deletes the
temporary file — so the claimed cleanup invariant ("on every exit path
the child is forcibly terminated and reaped before control returns; the
timeout force-terminates before raising") fails on that path, while
`run_codex` itself does satisfy it on every path. -/
theorem c1_last_message_timeout_leaves_child_running :
    (∀ exit : RunCodexExit,
      (run_codex exit).child.running = false ∧ (run_codex exit).child.reaped = true) ∧
    (run_codex_last_message .communicateTimeout).failure
      = some ("codex execution timed out".data) ∧
    (run_codex_last_message .communicateTimeout).child.running = true ∧
    (run_codex_last_message .communicateTimeout).child.reaped = false :=
  ⟨run_codex_cleanup, rfl, rfl, rfl⟩

/-! ### C7: `assistant:`-labelled lines -/

/-- Inversion for `starts` against a cons pattern. -/
theorem starts_cons_inv {v : Str} {c : Char} {p : Str} (h : starts v (c :: p) = true) :
    ∃ t, v = c :: t ∧ starts t p = true := by
  cases v with
  | nil => simp [starts] at h
  | cons d t =>
    unfold starts at h
    rw [Bool.and_eq_true] at h
    exact ⟨t, by rw [beq_iff_eq.mp h.1], h.2⟩

/-- C7 counterexample: the filter fed `"assistant: hello"` drops the
whole line (returns `None`) instead of stripping the label and emitting
the non-empty remainder `"hello"` as the claim states. -/
theorem c7_assistant_label_counterexample :
    starts (normalize_line (rstrip_rn ("assistant: hello\n".data))) ("assistant:".data)
        = true ∧
    (process FState.init ("assistant: hello\n".data)).2 = none ∧
    ¬ (process FState.init ("assistant: hello\n".data)).2 = some ("hello\n".data) ∧
    ¬ (process FState.init ("assistant: hello\n".data)).2 = some ("hello".data) :=
  ⟨by decide, by decide, by decide, by decide⟩

/-- C7 as amended: a line whose normalized form begins `assistant:` is
always dropped — remainder included — while ending any
instructions-echo block and marking that assistant output has been
seen. -/
theorem c7_assistant_label_amended (st : FState) (raw_line : Str)
    (h : starts (normalize_line (rstrip_rn raw_line)) ("assistant:".data) = true) :
    process st raw_line = ({ st with in_user_block := false, saw_assistant := true }, none) := by
  obtain ⟨t, hv, -⟩ := starts_cons_inv h
  have hu1 : starts (normalize_line (rstrip_rn raw_line)) ("user instructions:".data)
      = false := by
    rw [hv]
    simp [starts]
  have hu2 : starts (normalize_line (rstrip_rn raw_line)) ("user:".data) = false := by
    rw [hv]
    simp [starts]
  simp only [process, hu1, hu2, h, Bool.or_self, Bool.false_eq_true, if_false, if_true]

/-- Witness for C7's amended statement. -/
theorem c7_assistant_label_amended_witness :
    process FState.init ("assistant: hello\n".data)
      = ({ FState.init with in_user_block := false, saw_assistant := true }, none) :=
  c7_assistant_label_amended FState.init ("assistant: hello\n".data) (by decide)

/-! ### C10: idempotence of the whole-text filter -/

/-- A string with no line-boundary characters (as produced by
`splitlines`). -/
def NoNL (p : Str) : Prop := ∀ ch ∈ p, ¬ ch = '\n' ∧ ¬ ch = '\r'

/-- `dropWhile` is the identity when no element satisfies the
predicate. -/
theorem dropWhile_eq_self_of {α : Type} (p : α → Bool) (x : List α)
    (h : ∀ c ∈ x, p c = false) : x.dropWhile p = x := by
  cases x with
  | nil => rfl
  | cons c t => simp [List.dropWhile_cons, h c (by simp)]

/-- Every piece produced by `splitlines` is free of `\n` and `\r`. -/
theorem splitlines_no_nl (raw : Str) : ∀ l ∈ splitlines raw, NoNL l := by
  induction raw using splitlines.induct with
  | case1 => intro l hl; cases hl
  | case2 t ih =>
    intro l hl
    rw [splitlines.eq_2] at hl
    rcases List.mem_cons.mp hl with rfl | hl'
    · intro ch hch; cases hch
    · exact ih l hl'
  | case3 t hcond ih =>
    intro l hl
    rw [splitlines.eq_3 t hcond] at hl
    rcases List.mem_cons.mp hl with rfl | hl'
    · intro ch hch; cases hch
    · exact ih l hl'
  | case4 t ih =>
    intro l hl
    rw [splitlines.eq_4] at hl
    rcases List.mem_cons.mp hl with rfl | hl'
    · intro ch hch; cases hch
    · exact ih l hl'
  | case5 c t h1 h2 h3 hsplit ih =>
    intro l hl
    rw [splitlines.eq_5 c t h1 h2 h3, hsplit] at hl
    have hl2 : l ∈ [[c]] := hl
    rcases List.mem_singleton.mp hl2 with rfl
    intro ch hch
    rcases List.mem_singleton.mp hch with rfl
    exact ⟨h3, h2⟩
  | case6 c t h1 h2 h3 w ws hsplit ih =>
    intro l hl
    rw [splitlines.eq_5 c t h1 h2 h3, hsplit] at hl
    have hl2 : l ∈ (c :: w) :: ws := hl
    rcases List.mem_cons.mp hl2 with rfl | hl'
    · intro ch hch
      rcases List.mem_cons.mp hch with rfl | hch'
      · exact ⟨h3, h2⟩
      · exact ih w (by rw [hsplit]; simp) ch hch'
    · exact ih l (by rw [hsplit]; simp [hl'])

/-- Stripping `\r\n` from a newline-terminated boundary-free line
recovers the line. -/
theorem rstrip_rn_append_nl (l : Str) (h : NoNL l) : rstrip_rn (l ++ ['\n']) = l := by
  unfold rstrip_rn
  rw [List.reverse_append]
  show ((['\n'].reverse ++ l.reverse).dropWhile fun c => c == '\r' || c == '\n').reverse = l
  rw [List.reverse_singleton]
  show ((('\n' :: l.reverse)).dropWhile fun c => c == '\r' || c == '\n').reverse = l
  rw [List.dropWhile_cons]
  simp only [show (('\n' == '\r' || '\n' == '\n') : Bool) = true from rfl, if_true]
  rw [dropWhile_eq_self_of _ _ ?_, List.reverse_reverse]
  intro c hc
  have := h c (List.mem_reverse.mp hc)
  simp [this.1, this.2]

/-- `rstrip("\n")` swallows one trailing newline. -/
theorem rstrip_n_append_nl (x : Str) : rstrip_n (x ++ ['\n']) = rstrip_n x := by
  unfold rstrip_n
  rw [List.reverse_append, List.reverse_singleton]
  show ((('\n' :: x.reverse)).dropWhile fun c => c == '\n').reverse = _
  rw [List.dropWhile_cons]
  simp

/-- `rstrip("\n")` is the identity on boundary-free strings. -/
theorem rstrip_n_eq_self (l : Str) (h : NoNL l) : rstrip_n l = l := by
  unfold rstrip_n
  rw [dropWhile_eq_self_of _ _ ?_, List.reverse_reverse]
  intro c hc
  have := h c (List.mem_reverse.mp hc)
  simp [this.1]

/-- A line the filter keeps as content: not an instructions-echo or
assistant label, not blank, not metadata — exactly the conditions under
which `process` reaches its final emitting branch. -/
def content_keep (c : Str) : Bool :=
  !(starts (normalize_line c) ("user instructions:".data) ||
      starts (normalize_line c) ("user:".data)) &&
  !(starts (normalize_line c) ("assistant:".data)) &&
  !(py_strip c).isEmpty &&
  !(is_metadata_line (py_strip c))

/-- An emitted content part: a kept, boundary-free line plus its
newline. -/
def ContentPart (p : Str) : Prop :=
  ∃ c, p = c ++ ['\n'] ∧ content_keep c = true ∧ NoNL c

/-- A well-formed emitted part: a lone newline or a content part. -/
def PartWF (p : Str) : Prop := p = ['\n'] ∨ ContentPart p

/-- Emitted parts are well-formed, and when nothing has been emitted
yet the first part must be content (blank lines are only passed through
after content has appeared). -/
def PartsOK : Bool → List Str → Prop
  | _, [] => True
  | true, p :: t => PartWF p ∧ PartsOK true t
  | false, p :: t => ContentPart p ∧ PartsOK true t

/-- Unfolding one step of the filter loop. -/
theorem run_filter_cons (st : FState) (l : Str) (t : List Str) :
    (run_filter st (l :: t)).2
      = (match (process st (l ++ ['\n'])).2 with
         | none => (run_filter (process st (l ++ ['\n'])).1 t).2
         | some p => p :: (run_filter (process st (l ++ ['\n'])).1 t).2) := by
  rw [run_filter.eq_2]

/-- The emitting branch of `process`: a kept content line outside a
user block is emitted verbatim. -/
theorem process_emit (st : FState) (l : Str) (hn : NoNL l)
    (hub : st.in_user_block = false) (hk : content_keep l = true) :
    process st (l ++ ['\n'])
      = ({ st with saw_assistant := true, emitted_any := true }, some (l ++ ['\n'])) := by
  have hline := rstrip_rn_append_nl l hn
  unfold content_keep at hk
  rw [Bool.and_eq_true, Bool.and_eq_true, Bool.and_eq_true] at hk
  obtain ⟨⟨⟨h1, h2⟩, h3⟩, h4⟩ := hk
  rw [Bool.not_eq_true'] at h1 h2 h3 h4
  simp only [process, hline, h1, h2, h3, h4, hub, Bool.false_eq_true, if_false]

/-- The blank-line branch of `process` once content has been emitted. -/
theorem process_blank (st : FState) (hub : st.in_user_block = false)
    (he : st.emitted_any = true) :
    process st (([] : Str) ++ ['\n']) = (st, some ['\n']) := by
  have h0 : rstrip_rn (([] : Str) ++ ['\n']) = [] := by decide
  have h1 : (starts (normalize_line []) ("user instructions:".data) ||
      starts (normalize_line []) ("user:".data)) = false := by decide
  have h2 : starts (normalize_line []) ("assistant:".data) = false := by decide
  have h3 : (py_strip ([] : Str)).isEmpty = true := by decide
  simp only [process, h0, h1, h2, h3, hub, he, Bool.false_eq_true, if_false, if_true]

/-- What one `process` step can do to a boundary-free line: emit it as
content, emit a newline for a blank line after content, or drop it —
never changing `emitted_any` except when emitting content. -/
theorem process_out_characterize (st : FState) (l : Str) (hn : NoNL l) :
    (process st (l ++ ['\n'])
        = ({ st with saw_assistant := true, emitted_any := true }, some (l ++ ['\n'])) ∧
      content_keep l = true ∧ st.in_user_block = false) ∨
    (process st (l ++ ['\n']) = (st, some ['\n']) ∧ st.emitted_any = true) ∨
    ((process st (l ++ ['\n'])).2 = none ∧
      (process st (l ++ ['\n'])).1.emitted_any = st.emitted_any) := by
  have hline := rstrip_rn_append_nl l hn
  by_cases b1 : (starts (normalize_line l) ("user instructions:".data) ||
      starts (normalize_line l) ("user:".data)) = true
  · refine .inr (.inr ⟨?_, ?_⟩) <;> simp only [process, hline, b1, if_true]
  · rw [Bool.not_eq_true] at b1
    by_cases b2 : starts (normalize_line l) ("assistant:".data) = true
    · refine .inr (.inr ⟨?_, ?_⟩) <;>
        simp only [process, hline, b1, b2, Bool.false_eq_true, if_false, if_true]
    · rw [Bool.not_eq_true] at b2
      by_cases b3 : (py_strip l).isEmpty = true
      · by_cases b4 : st.in_user_block = true
        · refine .inr (.inr ⟨?_, ?_⟩) <;>
            simp only [process, hline, b1, b2, b3, b4, Bool.false_eq_true, if_false, if_true]
        · rw [Bool.not_eq_true] at b4
          by_cases b5 : st.emitted_any = true
          · refine .inr (.inl ⟨?_, b5⟩)
            simp only [process, hline, b1, b2, b3, b4, b5, Bool.false_eq_true, if_false,
              if_true]
          · rw [Bool.not_eq_true] at b5
            refine .inr (.inr ⟨?_, ?_⟩) <;>
              simp only [process, hline, b1, b2, b3, b4, b5, Bool.false_eq_true, if_false,
                if_true]
      · rw [Bool.not_eq_true] at b3
        by_cases b4 : st.in_user_block = true
        · by_cases b5 : looks_like_codex_marker (py_strip l) = true
          · refine .inr (.inr ⟨?_, ?_⟩) <;>
              simp only [process, hline, b1, b2, b3, b4, b5, Bool.false_eq_true, if_false,
                if_true]
          · rw [Bool.not_eq_true] at b5
            refine .inr (.inr ⟨?_, ?_⟩) <;>
              simp only [process, hline, b1, b2, b3, b4, b5, Bool.false_eq_true, if_false,
                if_true]
        · rw [Bool.not_eq_true] at b4
          by_cases b6 : is_metadata_line (py_strip l) = true
          · refine .inr (.inr ⟨?_, ?_⟩) <;>
              simp only [process, hline, b1, b2, b3, b4, b6, Bool.false_eq_true, if_false,
                if_true]
          · rw [Bool.not_eq_true] at b6
            refine .inl ⟨?_, ?_, b4⟩
            · simp only [process, hline, b1, b2, b3, b4, b6, Bool.false_eq_true, if_false,
                if_true]
            · unfold content_keep
              rw [b1, b2, b3, b6]
              rfl

/-- Pass 1: running the filter from any state over boundary-free lines
produces well-formed parts, and a blank part can only follow content. -/
theorem run_filter_wf (ls : List Str) : ∀ st : FState, (∀ l ∈ ls, NoNL l) →
    PartsOK st.emitted_any (run_filter st ls).2 := by
  induction ls with
  | nil =>
    intro st _
    cases st.emitted_any <;> exact trivial
  | cons l t ih =>
    intro st h
    have hn : NoNL l := h l (by simp)
    have ht : ∀ l' ∈ t, NoNL l' := fun l' h' => h l' (by simp [h'])
    rw [run_filter_cons]
    rcases process_out_characterize st l hn with ⟨heq, hk, -⟩ | ⟨heq, hem⟩ | ⟨ho, hem⟩
    · rw [heq]
      have hrest : PartsOK true
          (run_filter { st with saw_assistant := true, emitted_any := true } t).2 := by
        simpa using ih { st with saw_assistant := true, emitted_any := true } ht
      cases hflag : st.emitted_any
      · exact ⟨⟨l, rfl, hk, hn⟩, hrest⟩
      · exact ⟨Or.inr ⟨l, rfl, hk, hn⟩, hrest⟩
    · rw [heq, hem]
      have hrest : PartsOK true (run_filter st t).2 := by
        have := ih st ht
        rwa [hem] at this
      exact ⟨Or.inl rfl, hrest⟩
    · rw [ho]
      have := ih (process st (l ++ ['\n'])).1 ht
      rwa [hem] at this

/-- Pass 2: from a clean state with content already emitted, the filter
passes every blank-or-kept boundary-free line through verbatim (with
its newline). -/
theorem run_filter_stable (B : List Str) : ∀ st : FState,
    st.in_user_block = false → st.emitted_any = true →
    (∀ b ∈ B, (b = [] ∨ content_keep b = true) ∧ NoNL b) →
    (run_filter st B).2 = B.map (fun b => b ++ ['\n']) := by
  induction B with
  | nil => intro st _ _ _; rfl
  | cons b B' ih =>
    intro st hub he hB
    obtain ⟨hbc, hbn⟩ := hB b (by simp)
    have hB' : ∀ x ∈ B', (x = [] ∨ content_keep x = true) ∧ NoNL x :=
      fun x hx => hB x (by simp [hx])
    rw [run_filter_cons]
    rcases hbc with rfl | hk
    · rw [process_blank st hub he]
      show ['\n'] :: (run_filter st B').2 = _
      rw [ih st hub he hB']
      rfl
    · rw [process_emit st b hbn hub hk]
      show (b ++ ['\n']) :: (run_filter { st with saw_assistant := true, emitted_any := true } B').2 = _
      rw [ih _ (by simp [hub]) rfl hB']
      rfl

/-- The newline-terminated concatenation of a body list, with trailing
newlines stripped: the shape of `_sanitize_codex_text`'s result. -/
def glue (bs : List Str) : Str :=
  rstrip_n (List.flatten (bs.map (fun b => b ++ ['\n'])))

/-- Remove trailing empty bodies. -/
def dropTrailingNils (bs : List Str) : List Str :=
  (bs.reverse.dropWhile List.isEmpty).reverse

/-- A trailing blank body does not change the glued text. -/
theorem glue_concat_nil (bs : List Str) : glue (bs ++ [[]]) = glue bs := by
  unfold glue
  rw [List.map_append]
  show rstrip_n (List.flatten (bs.map (fun b => b ++ ['\n']) ++ [['\n']])) = _
  rw [List.flatten_append]
  show rstrip_n (List.flatten (bs.map (fun b => b ++ ['\n'])) ++ (['\n'] ++ [])) = _
  rw [List.append_nil, rstrip_n_append_nl]

/-- `dropTrailingNils` drops a trailing blank. -/
theorem dropTrailingNils_concat_nil (bs : List Str) :
    dropTrailingNils (bs ++ [[]]) = dropTrailingNils bs := by
  unfold dropTrailingNils
  rw [List.reverse_append]
  rfl

/-- `dropTrailingNils` keeps a non-blank last body. -/
theorem dropTrailingNils_concat_ne (bs : List Str) (x : Str) (hx : ¬ x = []) :
    dropTrailingNils (bs ++ [x]) = bs ++ [x] := by
  unfold dropTrailingNils
  rw [List.reverse_append]
  show (((x :: ([] : List Str).reverse) ++ bs.reverse).dropWhile List.isEmpty).reverse = _
  have hxe : x.isEmpty = false := by simp [List.isEmpty_iff, hx]
  rw [List.cons_append, List.dropWhile_cons, hxe]
  simp

/-- `dropTrailingNils` keeps a non-blank head. -/
theorem dropTrailingNils_cons_ne (x : Str) (xs : List Str) (hx : ¬ x = []) :
    dropTrailingNils (x :: xs) = x :: dropTrailingNils xs := by
  unfold dropTrailingNils
  rw [List.reverse_cons]
  have hxe : x.isEmpty = false := by simp [List.isEmpty_iff, hx]
  by_cases hd : xs.reverse.dropWhile List.isEmpty = []
  · have hall : ∀ c ∈ xs.reverse, c.isEmpty = true := List.dropWhile_eq_nil_iff.mp hd
    rw [dropWhile_append_all _ _ _ hall, List.dropWhile_cons, hxe, hd]
    simp
  · rw [dropWhile_append_left _ _ _ hd, List.reverse_append]
    rfl

/-- Trailing blank bodies do not change the glued text. -/
theorem glue_dropTrailing (bs : List Str) : glue bs = glue (dropTrailingNils bs) := by
  induction bs using List.reverseRecOn with
  | nil => rfl
  | append_singleton xs x ih =>
    by_cases hx : x = []
    · subst hx
      rw [glue_concat_nil, dropTrailingNils_concat_nil, ih]
    · rw [dropTrailingNils_concat_ne xs x hx]

/-- `dropTrailingNils` only removes elements. -/
theorem dropTrailingNils_mem {bs : List Str} {y : Str} (h : y ∈ dropTrailingNils bs) :
    y ∈ bs := by
  unfold dropTrailingNils at h
  rw [List.mem_reverse] at h
  exact List.mem_reverse.mp ((List.dropWhile_sublist _).mem h)

/-- The first survivor of `dropWhile` fails the predicate. -/
theorem dropWhile_head_false {α : Type} (p : α → Bool) (l : List α) (y : α) (ys : List α)
    (h : l.dropWhile p = y :: ys) : p y = false := by
  induction l with
  | nil => cases h
  | cons c t ih =>
    rw [List.dropWhile_cons] at h
    by_cases hc : p c = true
    · rw [if_pos hc] at h
      exact ih h
    · rw [if_neg hc] at h
      cases h
      exact Bool.not_eq_true _ |>.mp hc

/-- A non-empty `dropTrailingNils` result ends in a non-blank body. -/
theorem dropTrailingNils_getLast (bs : List Str) :
    ¬ (dropTrailingNils bs).getLast? = some [] := by
  unfold dropTrailingNils
  rw [List.getLast?_reverse]
  cases hh : bs.reverse.dropWhile List.isEmpty with
  | nil => simp
  | cons y ys =>
    have hy : y.isEmpty = false := dropWhile_head_false _ _ _ _ hh
    intro hc
    rw [List.head?_cons] at hc
    cases hc
    cases hy

/-- `splitlines` of a non-empty boundary-free string is that single
line. -/
theorem splitlines_single (b : Str) (hn : NoNL b) (hb : ¬ b = []) :
    splitlines b = [b] := by
  induction b with
  | nil => cases hb rfl
  | cons c t ih =>
    have hc := hn c (by simp)
    have hnt : NoNL t := fun ch hch => hn ch (by simp [hch])
    rw [splitlines.eq_5 c t (fun _ hr _ => hc.2 hr) (fun hr => hc.2 hr)
      (fun hnl => hc.1 hnl)]
    cases ht : t with
    | nil =>
      rw [show splitlines ([] : Str) = [] from rfl]
    | cons d u =>
      rw [← ht, ih hnt (by rw [ht]; simp)]

/-- `splitlines` peels one boundary-free line off a newline. -/
theorem splitlines_append_nl (b z : Str) (hn : NoNL b) :
    splitlines (b ++ '\n' :: z) = b :: splitlines z := by
  induction b with
  | nil => exact splitlines.eq_4 z
  | cons c t ih =>
    have hc := hn c (by simp)
    have hnt : NoNL t := fun ch hch => hn ch (by simp [hch])
    show splitlines (c :: (t ++ '\n' :: z)) = (c :: t) :: splitlines z
    rw [splitlines.eq_5 c _ (fun _ hr _ => hc.2 hr) (fun hr => hc.2 hr)
      (fun hnl => hc.1 hnl), ih hnt]

/-- The glued text of a non-empty body list with a non-blank last body
splits back into exactly those bodies, and is non-empty. -/
theorem glue_structure (B : List Str) :
    (∀ b ∈ B, NoNL b) → ¬ B.getLast? = some [] → ¬ B = [] →
    splitlines (glue B) = B ∧ ¬ glue B = [] := by
  induction B with
  | nil => intro _ _ h; cases h rfl
  | cons b B' ih =>
    intro hn hlast _
    cases B' with
    | nil =>
      have hb : ¬ b = [] := by
        intro h0
        exact hlast (by rw [h0]; rfl)
      have hnb : NoNL b := hn b (by simp)
      have hglue : glue [b] = b := by
        unfold glue
        simp only [List.map_cons, List.map_nil, List.flatten_cons, List.flatten_nil,
          List.append_nil]
        rw [rstrip_n_append_nl, rstrip_n_eq_self b hnb]
      rw [hglue]
      exact ⟨splitlines_single b hnb hb, hb⟩
    | cons b2 B'' =>
      have hlast' : ¬ (b2 :: B'').getLast? = some [] := by
        rwa [List.getLast?_cons_cons] at hlast
      have hn' : ∀ x ∈ b2 :: B'', NoNL x := fun x hx => hn x (by simp [hx])
      obtain ⟨hs, hne⟩ := ih hn' hlast' (by simp)
      have hglue : glue (b :: b2 :: B'') = b ++ '\n' :: glue (b2 :: B'') := by
        unfold glue
        rw [List.map_cons, List.flatten_cons, rstrip_n_append _ _ hne, List.append_assoc]
        rfl
      rw [hglue]
      refine ⟨?_, ?_⟩
      · rw [splitlines_append_nl b _ (hn b (by simp)), hs]
      · cases b <;> simp

/-- All parts of a post-content run are well-formed. -/
theorem partsok_parts {ps : List Str} (h : PartsOK true ps) : ∀ p ∈ ps, PartWF p := by
  induction ps with
  | nil => intro p hp; cases hp
  | cons q t ih =>
    obtain ⟨h1, h2⟩ := h
    intro p hp
    rcases List.mem_cons.mp hp with rfl | hp'
    · exact h1
    · exact ih h2 p hp'

/-- C10: the whole-text Line Filter is idempotent on its own output —
sanitizing an already-sanitized text returns it unchanged. -/
theorem c10_sanitize_idempotent (raw : Str) :
    sanitize_codex_text (sanitize_codex_text raw) = sanitize_codex_text raw := by
  have hwf0 : PartsOK false (run_filter FState.init (splitlines raw)).2 :=
    run_filter_wf (splitlines raw) FState.init (splitlines_no_nl raw)
  rcases hcase : (run_filter FState.init (splitlines raw)).2 with _ | ⟨p0, rest⟩
  · have h1 : sanitize_codex_text raw = [] := by
      unfold sanitize_codex_text
      rw [hcase]
      rfl
    rw [h1]
    rfl
  · rw [hcase] at hwf0
    obtain ⟨hp0, hrest⟩ := hwf0
    obtain ⟨c0, hc0eq, hc0keep, hc0n⟩ := hp0
    have hbody : ∀ p ∈ p0 :: rest,
        ∃ c, p = c ++ ['\n'] ∧ NoNL c ∧ (c = [] ∨ content_keep c = true) := by
      intro p hp
      rcases List.mem_cons.mp hp with rfl | hp'
      · exact ⟨c0, hc0eq, hc0n, Or.inr hc0keep⟩
      · rcases partsok_parts hrest p hp' with h1 | ⟨c, hc1, hc2, hc3⟩
        · exact ⟨[], by rw [h1]; rfl, fun ch hch => absurd hch (by simp), Or.inl rfl⟩
        · exact ⟨c, hc1, hc3, Or.inr hc2⟩
    have hmap : ((p0 :: rest).map List.dropLast).map (fun b => b ++ ['\n']) = p0 :: rest := by
      rw [List.map_map]
      have hcong : ∀ p ∈ p0 :: rest, ((fun b => b ++ ['\n']) ∘ List.dropLast) p = id p := by
        intro p hp
        obtain ⟨c, hc, -, -⟩ := hbody p hp
        show p.dropLast ++ ['\n'] = p
        rw [hc, List.dropLast_concat]
      rw [List.map_congr_left hcong, List.map_id]
    have hsan1 : sanitize_codex_text raw = glue ((p0 :: rest).map List.dropLast) := by
      unfold sanitize_codex_text glue
      rw [hcase, hmap]
    have hb0 : p0.dropLast = c0 := by rw [hc0eq, List.dropLast_concat]
    have hc0ne : ¬ c0 = [] := by
      intro h0
      rw [h0] at hc0keep
      exact absurd hc0keep (by decide)
    have hBdef : dropTrailingNils ((p0 :: rest).map List.dropLast)
        = c0 :: dropTrailingNils (rest.map List.dropLast) := by
      rw [List.map_cons, hb0, dropTrailingNils_cons_ne c0 _ hc0ne]
    have hsan2 : sanitize_codex_text raw
        = glue (c0 :: dropTrailingNils (rest.map List.dropLast)) := by
      rw [hsan1, glue_dropTrailing, hBdef]
    have hBprops : ∀ b ∈ c0 :: dropTrailingNils (rest.map List.dropLast),
        NoNL b ∧ (b = [] ∨ content_keep b = true) := by
      intro b hb
      rcases List.mem_cons.mp hb with rfl | hb'
      · exact ⟨hc0n, Or.inr hc0keep⟩
      · have hbmem : b ∈ rest.map List.dropLast := dropTrailingNils_mem hb'
        obtain ⟨p, hp, hpd⟩ := List.mem_map.mp hbmem
        obtain ⟨c, hc, hcn, hck⟩ := hbody p (by simp [hp])
        rw [← hpd, hc, List.dropLast_concat]
        exact ⟨hcn, hck⟩
    have hlastB : ¬ (c0 :: dropTrailingNils (rest.map List.dropLast)).getLast? = some [] := by
      rw [← hBdef]
      exact dropTrailingNils_getLast _
    have hstruct := glue_structure (c0 :: dropTrailingNils (rest.map List.dropLast))
      (fun b hb => (hBprops b hb).1) hlastB (by simp)
    have hpass2 : sanitize_codex_text
        (glue (c0 :: dropTrailingNils (rest.map List.dropLast)))
        = glue (c0 :: dropTrailingNils (rest.map List.dropLast)) := by
      unfold sanitize_codex_text
      rw [hstruct.1, run_filter_cons, process_emit FState.init c0 hc0n rfl hc0keep]
      show rstrip_n (List.flatten ((c0 ++ ['\n']) ::
        (run_filter { FState.init with saw_assistant := true, emitted_any := true }
          (dropTrailingNils (rest.map List.dropLast))).2)) = _
      rw [run_filter_stable _ _ rfl rfl
        (fun b hb => ⟨(hBprops b (by simp [hb])).2, (hBprops b (by simp [hb])).1⟩)]
      rfl
    rw [hsan2, hpass2]

end CodexWrapper
